import Mathlib

/-!
Verification development for the Ultimaker Home Assistant integration
(`custom_components/ultimaker`), centred on the polling / normalization
logic of `api_client.py` (class `UltimakerLocalApiClient`) and the
time-remaining sensor of `sensor.py`.

The Python data dictionaries exchanged with the printer are modelled by
the JSON-like value type `Jv`.  Operations that can raise a Python
exception (`KeyError`, `TypeError`, `AttributeError`, ...) are modelled
in the `Except Unit` monad; the identity of the exception class is
irrelevant to the modelled code because every handler involved is either
a catch-all `except Exception` or distinguishes only the network /
timeout errors, which are modelled separately (`FetchSim`).

Python floats are modelled as rationals; timestamps (`datetime.now()`)
are modelled as an abstract `Nat` tick carried in the `Jv.time`
constructor.
-/

set_option autoImplicit false

namespace Ultimaker

/-- A JSON-like value as handled by the Python code: `None`, booleans,
numbers (int/float collapsed to `Rat`), strings, `datetime` timestamps,
lists and dicts (insertion-ordered association lists, as Python dicts). -/
inductive Jv where
  | null
  | bool (b : Bool)
  | num (q : Rat)
  | str (s : String)
  | time (t : Nat)
  | arr (xs : List Jv)
  | obj (fs : List (String × Jv))

/-- Exceptions other than network/timeout errors, which every modelled
handler treats uniformly (`except Exception`). -/
abbrev Exc (α : Type) : Type := Except Unit α

/-- Look up the first binding of a key in a field list (Python dict lookup). -/
def lookupF : List (String × Jv) → String → Option Jv
  | [], _ => none
  | (k, v) :: rest, key => if k = key then some v else lookupF rest key

/-- Update the first binding of a key, or append a new binding
(Python dict assignment keeps the original key position; a new key is
appended in insertion order). -/
def insertF : List (String × Jv) → String → Jv → List (String × Jv)
  | [], key, v => [(key, v)]
  | (k, w) :: rest, key, v =>
      if k = key then (k, v) :: rest else (k, w) :: insertF rest key v

/-- The entry of a dict-shaped value at a key; `none` for non-dicts. -/
def entryO : Jv → String → Option Jv
  | .obj fs, k => lookupF fs k
  | _, _ => none

/-- Whether a value is a Python dict. -/
def isObjB : Jv → Bool
  | .obj _ => true
  | _ => false

/-- Total dict insertion; non-dicts are returned unchanged (callers guard). -/
def objInsert : Jv → String → Jv → Jv
  | .obj fs, k, v => .obj (insertF fs k v)
  | d, _, _ => d

/-- Python truthiness of a value (`if x:`). -/
def truthyJ : Jv → Bool
  | .null => false
  | .bool b => b
  | .num q => decide (q ≠ 0)
  | .str s => !s.isEmpty
  | .time _ => true
  | .arr xs => !xs.isEmpty
  | .obj fs => !fs.isEmpty

/-- Substring test on character lists (structural helper). -/
def hasSubList (pat : List Char) : List Char → Bool
  | [] => pat.isEmpty
  | c :: t => pat.isPrefixOf (c :: t) || hasSubList pat t

/-- Substring test, modelling Python `pat in hay` on strings. -/
def strHasSub (hay pat : String) : Bool :=
  hasSubList pat.data hay.data

/-- Lower-casing, modelling Python `s.lower()` (character-wise). -/
def strLower (s : String) : String :=
  String.mk (s.data.map Char.toLower)

/-- Python `==` between an arbitrary value and a string literal
(equality across types is `False`, never an error). -/
def jvEqStr : Jv → String → Bool
  | .str s, t => s = t
  | _, _ => false

/-- Python `key in container`: key test on dicts, substring test on
strings, membership (by `==` against the string) on lists; a `TypeError`
on numbers, booleans, `None` and timestamps. -/
def containsE : Jv → String → Exc Bool
  | .obj fs, k => .ok (lookupF fs k).isSome
  | .str s, k => .ok (strHasSub s k)
  | .arr xs, k => .ok (xs.any (fun v => jvEqStr v k))
  | _, _ => .error ()

/-- Python `container[key]` with a string key: dict lookup (`KeyError`
when absent); a `TypeError` on every other shape. -/
def getItemE : Jv → String → Exc Jv
  | .obj fs, k =>
      match lookupF fs k with
      | some v => .ok v
      | none => .error ()
  | _, _ => .error ()

/-- Python `container[key] = v` with a string key: dict update;
a `TypeError` on every other shape. -/
def setItemE : Jv → String → Jv → Exc Jv
  | .obj fs, k, v => .ok (.obj (insertF fs k v))
  | _, _, _ => .error ()

/-- Python `d.get(key, default)`: an `AttributeError` on non-dicts. -/
def getDE : Jv → String → Jv → Exc Jv
  | .obj fs, k, dflt => .ok ((lookupF fs k).getD dflt)
  | _, _, _ => .error ()

/-- Python `d.setdefault(key, default)`: an `AttributeError` on non-dicts. -/
def setdefaultE : Jv → String → Jv → Exc Jv
  | .obj fs, k, dflt =>
      .ok (.obj (if (lookupF fs k).isSome then fs else insertF fs k dflt))
  | _, _, _ => .error ()

/-- Python `xs[0]`: head of a list, first character of a non-empty
string; `KeyError` on dicts (the modelled dict keys are strings),
`TypeError` otherwise. -/
def index0E : Jv → Exc Jv
  | .arr (x :: _) => .ok x
  | .str s =>
      match s.data with
      | c :: _ => .ok (.str (String.mk [c]))
      | [] => .error ()
  | _ => .error ()

/-- Python `xs[1]`, analogous to `xs[0]`. -/
def index1E : Jv → Exc Jv
  | .arr (_ :: y :: _) => .ok y
  | .str s =>
      match s.data with
      | _ :: c :: _ => .ok (.str (String.mk [c]))
      | _ => .error ()
  | _ => .error ()

/-- Python `xs[0] = v` (model of the in-place mutation of a list
element, made explicit by functional write-back): lists only. -/
def setIndex0E : Jv → Jv → Exc Jv
  | .arr (_ :: rest), v => .ok (.arr (v :: rest))
  | _, _ => .error ()

/-- Python `xs[1] = v`, analogous to `xs[0] = v`. -/
def setIndex1E : Jv → Jv → Exc Jv
  | .arr (x :: _ :: rest), v => .ok (.arr (x :: v :: rest))
  | _, _ => .error ()

/-- Python `len(x)`: lists, strings and dicts; `TypeError` otherwise. -/
def lenE : Jv → Exc Nat
  | .arr xs => .ok xs.length
  | .str s => .ok s.length
  | .obj fs => .ok fs.length
  | _ => .error ()

/-- Python `s.lower()`: strings only (`AttributeError` otherwise). -/
def toLowerE : Jv → Exc String
  | .str s => .ok (strLower s)
  | _ => .error ()

/-- Numeric coercion for Python comparisons (`>=`, `<=`): numbers are
themselves, booleans count as 1/0; every other operand raises a
`TypeError`. -/
def toNumE : Jv → Exc Rat
  | .num q => .ok q
  | .bool b => .ok (if b then 1 else 0)
  | _ => .error ()

/-- Guard for the eager evaluation of `value * 100` inside logging
calls: multiplication of an int with a number, boolean, string or list
succeeds in Python (sequence repetition included), while `None`, dicts
and timestamps raise a `TypeError`. -/
def mulGuardE : Jv → Exc Unit
  | .num _ => .ok ()
  | .bool _ => .ok ()
  | .str _ => .ok ()
  | .arr _ => .ok ()
  | _ => .error ()

/-- Guard for using a value as a dict key (`guid in cache`): dicts and
lists are unhashable and raise a `TypeError`. -/
def hashableGuardE : Jv → Exc Unit
  | .arr _ => .error ()
  | .obj _ => .error ()
  | _ => .ok ()

/-!
The default-fill pass of `async_update` (api_client.py lines 259-382)
is a sequence of statements of two shapes:

  * `if key not in d: d[key] = leafDefault`                 -- `ensureKey`
  * `if key not in d: d[key] = {}` followed by reads and
    in-place mutations of `d[key]`                          -- `ensureKeyWith`
  * `if key not in d or not d[key]: d[key] = [{}]` followed
    by reads and in-place mutations of `d[key]`             -- `ensureTruthyKeyWith`

Python mutates the nested dicts through aliases; the functional model
re-reads the entry after the conditional insertion, transforms it, and
writes it back.  The write-back is semantically invisible: it succeeds
exactly when the earlier read succeeded (both require a dict), and it
stores the transformed value at the position the alias mutation would
have affected. -/

/-- Model of `if key not in d: d[key] = dflt`. -/
def ensureKey (k : String) (dflt : Jv) (d : Jv) : Exc Jv := do
  let c ← containsE d k
  if c then pure d else setItemE d k dflt

/-- Model of `if key not in d: d[key] = {}` followed by a block `f`
reading and mutating `d[key]` in place. -/
def ensureKeyWith (k : String) (dflt : Jv) (f : Jv → Exc Jv) (d : Jv) : Exc Jv := do
  let d ← ensureKey k dflt d
  let v ← getItemE d k
  let v ← f v
  setItemE d k v

/-- The condition `key not in d or not d[key]` (evaluated left to
right with short-circuiting, reading `d[key]` only when the key test
succeeded). -/
def truthyNeed (k : String) (d : Jv) : Exc Bool := do
  let c ← containsE d k
  if c then do
    let v ← getItemE d k
    pure (!truthyJ v)
  else pure true

/-- Model of `if key not in d or not d[key]: d[key] = dflt` followed by
a block `f` reading and mutating `d[key]` in place. -/
def ensureTruthyKeyWith (k : String) (dflt : Jv) (f : Jv → Exc Jv) (d : Jv) : Exc Jv :=
  truthyNeed k d >>= fun need =>
  (if need then setItemE d k dflt else pure d) >>= fun d0 =>
  getItemE d0 k >>= fun v =>
  f v >>= fun v2 =>
  setItemE d0 k v2

/-- api_client.py lines 264-274 and 301-311 and 348-358: ensure
`temperature.current` and `temperature.target` (defaults 0). -/
def fillTemperature (t : Jv) : Exc Jv := do
  let t ← ensureKey "current" (.num 0) t
  ensureKey "target" (.num 0) t

/-- api_client.py lines 317-323 / 364-370: ensure
`statistics.material_extruded` (default 0). -/
def fillStatistics (s : Jv) : Exc Jv :=
  ensureKey "material_extruded" (.num 0) s

/-- api_client.py lines 325-335 / 372-382: ensure
`active_material.length_remaining` (0) and `active_material.GUID`
("unknown"). -/
def fillActiveMaterial (am : Jv) : Exc Jv := do
  let am ← ensureKey "length_remaining" (.num 0) am
  ensureKey "GUID" (.str "unknown") am

/-- api_client.py lines 295-323 / 342-370: ensure the `hotend` block of
one extruder: `temperature.current`, `temperature.target`, `id`,
`statistics.material_extruded`. -/
def fillHotend (h : Jv) : Exc Jv := do
  let h ← ensureKeyWith "temperature" (.obj []) fillTemperature h
  let h ← ensureKey "id" (.str "unknown") h
  ensureKeyWith "statistics" (.obj []) fillStatistics h

/-- api_client.py lines 295-335 / 342-382: ensure the required fields of
one extruder (`hotend` block, then `active_material` block). -/
def fillExtruder (e : Jv) : Exc Jv := do
  let e ← ensureKeyWith "hotend" (.obj []) fillHotend e
  ensureKeyWith "active_material" (.obj []) fillActiveMaterial e

/-- api_client.py lines 292-382: fill the first extruder
(`head["extruders"][0]`), and the second one only when
`len(head["extruders"]) > 1`. -/
def fillExtruders (xs : Jv) : Exc Jv := do
  let e ← index0E xs
  let e ← fillExtruder e
  let xs ← setIndex0E xs e
  let n ← lenE xs
  if 1 < n then do
    let e2 ← index1E xs
    let e2 ← fillExtruder e2
    setIndex1E xs e2
  else pure xs

/-- api_client.py lines 285-382: the first head's `extruders` list is
created as `[{}]` when missing or falsy, then its extruders are filled. -/
def fillHead (h : Jv) : Exc Jv :=
  ensureTruthyKeyWith "extruders" (.arr [.obj []]) fillExtruders h

/-- api_client.py lines 286-382: operate on `heads[0]` in place. -/
def fillHeads (hs : Jv) : Exc Jv := do
  let h ← index0E hs
  let h ← fillHead h
  setIndex0E hs h

/-- api_client.py lines 259-278: the `bed` block (`temperature.current`,
`temperature.target`, `type`). -/
def fillBed (b : Jv) : Exc Jv := do
  let b ← ensureKeyWith "temperature" (.obj []) fillTemperature b
  ensureKey "type" (.str "unknown") b

/-- api_client.py lines 255-384: the complete default-fill pass over the
merged data dictionary (`bed` block, then `heads` block). -/
def fillRequiredFields (d : Jv) : Exc Jv := do
  let d ← ensureKeyWith "bed" (.obj []) fillBed d
  ensureTruthyKeyWith "heads" (.arr [.obj []]) fillHeads d

/-- The print-job states that, combined with a raw `printing` status,
force a correction to `idle` (api_client.py line 214). -/
def completionStates : List String :=
  ["finished", "done", "complete", "success", "wait_cleanup"]

/-- api_client.py lines 200-229: ensure `status` is present and
cross-check it against the print-job payload.  `jobOpt` is
`print_job_data` collapsed through its truthiness tests (`None` and
falsy payloads behave identically at every use site).  The model also
evaluates the arguments of the logging calls at lines 218 and 222,
where `job_progress * 100` raises a `TypeError` for `None`/dict/
datetime values of `progress`. -/
def statusStage (d : Jv) (jobOpt : Option Jv) : Exc Jv := do
  let c ← containsE d "status"
  if !c then
    setItemE d "status" (.str "idle")
  else do
    let raw ← getItemE d "status"
    match jobOpt with
    | some job => do
        let stV ← getDE job "state" (.str "")
        let jobState ← toLowerE stV
        let jobProgress ← getDE job "progress" (.num 0)
        if jvEqStr raw "printing" && decide (jobState ∈ completionStates) then
          setItemE d "status" (.str "idle")
        else if jvEqStr raw "printing" then do
          let p ← toNumE jobProgress
          if (999 / 1000 : Rat) ≤ p then
            setItemE d "status" (.str "idle")
          else do
            let _ ← mulGuardE jobProgress
            pure d
        else do
          let _ ← mulGuardE jobProgress
          pure d
    | none =>
        if jvEqStr raw "printing" then setItemE d "status" (.str "idle")
        else pure d

/-- api_client.py lines 234-236: `for key, value in print_job_data.items():
self._data[key] = value`. -/
def mergeItemsE (d : Jv) (job : Jv) : Exc Jv :=
  match job with
  | .obj fs => fs.foldlM (fun acc kv => setItemE acc kv.1 kv.2) d
  | _ => .error ()

/-- api_client.py lines 231-243: merge the print-job payload into the
data, or set default print-job fields when no job payload is present. -/
def mergeStage (d : Jv) (jobOpt : Option Jv) : Exc Jv :=
  match jobOpt with
  | some job => mergeItemsE d job
  | none => do
      let d ← setdefaultE d "state" (.str "idle")
      let d ← setdefaultE d "progress" (.num 0)
      let d ← setdefaultE d "time_total" (.num 0)
      setdefaultE d "time_elapsed" (.num 0)

/-- api_client.py lines 252-253: `if "progress" in self._data:` then the
log call evaluates `self._data.get("progress", 0) * 100` eagerly, which
raises a `TypeError` for `None`/dict/datetime progress values. -/
def progressLogGuard (d : Jv) : Exc Unit := do
  let c ← containsE d "progress"
  if c then do
    let pv ← getDE d "progress" (.num 0)
    mulGuardE pv
  else pure ()

/-- api_client.py lines 389-407 (first extruder, `second = false`) and
lines 410-422 (second extruder, `second = true`): look up the active
material's GUID and, when it is truthy and not "unknown", store the
resolved material name (`name`, the result of `get_material_name`)
under `active_material["material_name"]`.  The functional write-backs
re-create the alias chain `d → heads → heads[0] → extruders →
extruders[i] → active_material`; every value on that chain is known to
be present and of the right shape in the branch that mutates.  Values
that `get_material_name` would fail on before its own try-block
(unhashable GUIDs at the cache lookup, line 81) raise here. -/
def indexSelE (second : Bool) (xs : Jv) : Exc Jv :=
  if second then index1E xs else index0E xs

def setIndexSelE (second : Bool) (xs v : Jv) : Exc Jv :=
  if second then setIndex1E xs v else setIndex0E xs v

def materialPart (second : Bool) (name : String) (d : Jv) : Exc Jv := do
  let heads ← getDE d "heads" (.arr [])
  if truthyJ heads then do
    let n ← lenE heads
    if 0 < n then do
      let head ← index0E heads
      let extruders ← getDE head "extruders" (.arr [])
      if truthyJ extruders then do
        let m ← lenE extruders
        if (if second then 1 < m else 0 < m) then do
          let e ← indexSelE second extruders
          let am ← getDE e "active_material" (.obj [])
          let inner ← getDE am "guid" (.str "unknown")
          let guid ← getDE am "GUID" inner
          if truthyJ guid && !jvEqStr guid "unknown" then do
            let _ ← hashableGuardE guid
            let am2 ← setItemE am "material_name" (.str name)
            let e2 ← setItemE e "active_material" am2
            let xs2 ← setIndexSelE second extruders e2
            let head2 ← setItemE head "extruders" xs2
            let heads2 ← setIndex0E heads head2
            setItemE d "heads" heads2
          else pure d
        else pure d
      else pure d
    else pure d
  else pure d

/-- api_client.py lines 386-425: the material-name enrichment block.
It is wrapped in `try ... except Exception: continue`, so an exception
in the first extruder's part skips the second part and keeps the data
as mutated so far, and an exception in the second part keeps the first
part's mutation.  `name1`/`name2` are the strings `get_material_name`
returns for the two GUIDs (it always returns a string for a hashable
GUID, see `get_material_name` below). -/
def materialNamesPass (d : Jv) (name1 name2 : String) : Jv :=
  match materialPart false name1 d with
  | .error _ => d
  | .ok d1 =>
      match materialPart true name2 d1 with
      | .error _ => d1
      | .ok d2 => d2

/-- api_client.py lines 182-522 (the part of the `try` body after
`printer_data` was fetched truthy): status verification, print-job
merge, logging guards, default-fill, material names, `sampleTime`. -/
def successBody (printer : Jv) (jobOpt : Option Jv) (name1 name2 : String)
    (now : Nat) : Exc Jv := do
  let d ← statusStage printer jobOpt
  let d ← mergeStage d jobOpt
  let _ ← progressLogGuard d
  let d ← fillRequiredFields d
  let d := materialNamesPass d name1 name2
  setItemE d "sampleTime" (.time now)

/-- Outcome of `_fetch_data` as observed by `async_update`: a value, or
one of the two exception kinds `_fetch_data` re-raises
(`aiohttp.ClientError`, `asyncio.TimeoutError`). -/
inductive FetchSim where
  | val (v : Jv)
  | errClient
  | errTimeout

/-- The mutable poller state of `UltimakerLocalApiClient` relevant to
the claims: `_last_successful_data` and `_consecutive_errors`
(`_max_consecutive_errors` is the constant 3). -/
structure ClientState where
  lastSuccessful : Option Jv
  consecutiveErrors : Nat

/-- Outcome of one `async_update` call: a returned snapshot, an
`UpdateFailed` raised to the coordinator, or an exception escaping from
inside an `except` handler (unreachable for dict-shaped caches). -/
inductive UpdResult where
  | snap (d : Jv)
  | failed
  | crashed

/-- api_client.py line 37: `_max_consecutive_errors = 3`. -/
def maxConsecutiveErrors : Nat := 3

/-- Boolean test used in statements about results. -/
def UpdResult.isSnap : UpdResult → Bool
  | .snap _ => true
  | _ => false

/-- The cached-data fallback body shared by the failure handlers:
`self._data = self._last_successful_data.copy()`;
`self._data["using_cached_data"] = True`; and, in the
`ClientError` / `TimeoutError` / generic-`Exception` handlers only
(`withTime = true`), `self._data["sampleTime"] = datetime.now()`.
The empty-payload branch at lines 170-175 omits the `sampleTime`
refresh (`withTime = false`). -/
def cachedCopy (cache : Jv) (withTime : Bool) (now : Nat) : Exc Jv := do
  let d ← setItemE cache "using_cached_data" (.bool true)
  if withTime then setItemE d "sampleTime" (.time now) else pure d

/-- The shared shape of the three `except` handlers of `async_update`
(api_client.py lines 431-504): increment `_consecutive_errors`; if
`_last_successful_data` is truthy and the new counter is below the
maximum, return the cached copy; otherwise raise `UpdateFailed`. -/
def exceptHandler (st : ClientState) (now : Nat) (withTime : Bool) :
    ClientState × UpdResult :=
  let n := st.consecutiveErrors + 1
  let st2 : ClientState := ⟨st.lastSuccessful, n⟩
  match st.lastSuccessful with
  | some cache =>
      if truthyJ cache && decide (n < maxConsecutiveErrors) then
        match cachedCopy cache withTime now with
        | .ok d => (st2, .snap d)
        | .error _ => (st2, .crashed)
      else (st2, .failed)
  | none => (st2, .failed)

/-- api_client.py lines 163-180: the `if not printer_data:` branch.
Its soft path returns the cached copy without refreshing `sampleTime`;
its hard path raises `UpdateFailed` at line 180, which is caught again
by the generic `except Exception` handler at line 479 (incrementing the
counter a second time) before `UpdateFailed` finally escapes from
there. -/
def emptyPayloadPath (st : ClientState) (now : Nat) : ClientState × UpdResult :=
  let n := st.consecutiveErrors + 1
  let st2 : ClientState := ⟨st.lastSuccessful, n⟩
  match st.lastSuccessful with
  | some cache =>
      if truthyJ cache && decide (n < maxConsecutiveErrors) then
        match cachedCopy cache false now with
        | .ok d => (st2, .snap d)
        | .error _ => (st2, .crashed)
      else exceptHandler st2 now true
  | none => exceptHandler st2 now true

/-- The print-job fetch of api_client.py lines 190-198: its result is
only ever used through truthiness tests, and any exception it raises is
absorbed leaving `print_job_data = None`; both `None` and falsy
payloads are collapsed to `none`. -/
def jobOf : FetchSim → Option Jv
  | .val v => if truthyJ v then some v else none
  | _ => none

/-- api_client.py lines 149-522, `UltimakerLocalApiClient.async_update`
(one unthrottled call with a configured host): `pf` is the outcome of
the primary `/printer` fetch, `jf` of the `/print_job` fetch,
`name1`/`name2` the material names `get_material_name` resolves for the
two extruders, and `now` the poll timestamp.  Returns the new poller
state and the call's outcome. -/
def async_update (st : ClientState) (pf jf : FetchSim)
    (name1 name2 : String) (now : Nat) : ClientState × UpdResult :=
  match pf with
  | .errClient => exceptHandler st now true
  | .errTimeout => exceptHandler st now true
  | .val v =>
      if truthyJ v then
        match successBody v (jobOf jf) name1 name2 now with
        | .ok d => (⟨some d, 0⟩, .snap d)
        | .error _ => exceptHandler st now true
      else emptyPayloadPath st now

/-- The observable outcome of one HTTP GET as `_fetch_data` sees it:
a response (status code, the JSON body when it parses — `none` models
`response.json()` raising `ValueError` on an invalid body — the raw
text body, and whether the `Content-Type` header indicates JSON), or a
connection error, or a timeout. -/
inductive HttpSim where
  | resp (status : Nat) (jsonBody : Option Jv) (textBody : String) (ctJson : Bool)
  | errClient
  | errTimeout

/-- Outcome of `_fetch_data` towards its caller: a returned value, or a
re-raised `aiohttp.ClientError` / `asyncio.TimeoutError`. -/
inductive FetchOut where
  | ok (v : Jv)
  | raiseClient
  | raiseTimeout

/-- api_client.py lines 524-607, `UltimakerLocalApiClient._fetch_data`:
HTTP status >= 400 returns `{}`; JSON is parsed when the content type
indicates JSON or when the URL ends in `/printer` or `/print_job`
(`urlJson`); an invalid JSON body (`ValueError`) is absorbed and `{}`
returned; other URLs return the text body; connection errors and
timeouts are logged and re-raised. -/
def fetch_data (urlJson : Bool) (h : HttpSim) : FetchOut :=
  match h with
  | .errClient => .raiseClient
  | .errTimeout => .raiseTimeout
  | .resp status jsonBody textBody ctJson =>
      if 400 ≤ status then .ok (.obj [])
      else if ctJson || urlJson then
        match jsonBody with
        | some v => .ok v
        | none => .ok (.obj [])
      else .ok (.str textBody)

/-- The observable features of the fetched material document that
`get_material_name` extracts through external library calls, modelled
abstractly: whether `ET.fromstring` succeeds (`parsed`), the stripped-
relevant text of `root.find(".//name")` when the element exists with
truthy text (`nameText`), likewise for
`root.find(".//metadata/properties/brand")` (`brandText`) and
`root.find(".//metadata/properties/material")` (`materialText`), and
group 1 of `re.search(r"<name>(.*?)</name>", material_xml)` when it
matches (`regexName`). -/
structure XmlView where
  parsed : Bool
  nameText : Option String
  brandText : Option String
  materialText : Option String
  regexName : Option String

/-- Outcome of the `/materials/{guid}` fetch as `get_material_name`
sees it: a non-empty text document together with its `XmlView`, some
other value (the empty string, or the `{}` returned on HTTP errors and
invalid JSON), or a re-raised network/timeout error. -/
inductive MatFetch where
  | text (s : String) (view : XmlView)
  | nonText (v : Jv)
  | errClient
  | errTimeout

/-- Python `str.strip()` (whitespace trim). -/
def pyStrip (s : String) : String := s.trim

/-- api_client.py lines 67-147, `UltimakerLocalApiClient
.get_material_name` for a string GUID: returns the resolved name and
the updated `_material_names_cache`.  Empty or "unknown" GUIDs return
"unknown" immediately; a cache hit returns the cached name; a failed or
non-string fetch returns the GUID; otherwise the structured XML
extraction is tried (name element, then brand+material), falling back
to the regex extraction when XML parsing fails; when no strategy
yields a name the GUID itself is returned and the cache is left
untouched.  The outer `except Exception` (lines 145-147) returns the
GUID for the re-raised network/timeout errors of `_fetch_data`. -/
def get_material_name (guid : String) (cache : List (String × String))
    (fetch : MatFetch) : String × List (String × String) :=
  if guid = "" ∨ guid = "unknown" then ("unknown", cache)
  else
    match cache.lookup guid with
    | some name => (name, cache)
    | none =>
        match fetch with
        | .errClient => (guid, cache)
        | .errTimeout => (guid, cache)
        | .nonText _ => (guid, cache)
        | .text s view =>
            if s = "" then (guid, cache)
            else if view.parsed then
              match view.nameText with
              | some t =>
                  let name := pyStrip t
                  (name, cache ++ [(guid, name)])
              | none =>
                  match view.brandText, view.materialText with
                  | some b, some m =>
                      let name := pyStrip b ++ " " ++ pyStrip m
                      (name, cache ++ [(guid, name)])
                  | _, _ => (guid, cache)
            else
              match view.regexName with
              | some r =>
                  let name := pyStrip r
                  (name, cache ++ [(guid, name)])
              | none => (guid, cache)

/-- sensor.py lines 732-745 (the `SENSOR_PRINT_JOB_TIME_REMAINING`
branch of `native_value`) before the exception handler: look up
`time_total` and `time_elapsed` with default 0 and compute
`total - elapsed` when `total > 0 and elapsed <= total`, else 0.
Python short-circuits: a non-numeric `elapsed` raises only when
`total > 0`. -/
def timeRemainingCore (data : Jv) : Exc Rat := do
  let tt ← getDE data "time_total" (.num 0)
  let te ← getDE data "time_elapsed" (.num 0)
  let t ← toNumE tt
  if 0 < t then do
    let e ← toNumE te
    if e ≤ t then pure (t - e) else pure ((0 : Rat))
  else pure ((0 : Rat))

/-- sensor.py lines 732-745 including the `except Exception` handler,
which yields 0 on any error. -/
def timeRemainingValue (data : Jv) : Rat :=
  match timeRemainingCore data with
  | .ok q => q
  | .error _ => 0

/-! Basic lemmas about the primitive operations. -/

theorem excBind_ok {α β : Type} {x : Exc α} {f : α → Exc β} {b : β} :
    (x >>= f) = .ok b ↔ ∃ a, x = .ok a ∧ f a = .ok b := by
  cases x <;> simp [Bind.bind, Except.bind]

theorem excBind_ok_of {α β : Type} {x : Exc α} {f : α → Exc β} {a : α} {b : β}
    (hx : x = .ok a) (hf : f a = .ok b) : (x >>= f) = .ok b := by
  subst hx; simpa [Bind.bind, Except.bind] using hf

@[simp] theorem entryO_obj (fs : List (String × Jv)) (k : String) :
    entryO (.obj fs) k = lookupF fs k := rfl

@[simp] theorem getDE_obj (fs : List (String × Jv)) (k : String) (dflt : Jv) :
    getDE (.obj fs) k dflt = .ok ((lookupF fs k).getD dflt) := rfl

@[simp] theorem toNumE_num (q : Rat) : toNumE (.num q) = .ok q := rfl

/-- Every value `timeRemainingCore` can return is non-negative. -/
theorem timeRemainingCore_nonneg (data : Jv) (q : Rat)
    (h : timeRemainingCore data = .ok q) : 0 ≤ q := by
  unfold timeRemainingCore at h
  rw [excBind_ok] at h
  obtain ⟨tt, _, h⟩ := h
  rw [excBind_ok] at h
  obtain ⟨te, _, h⟩ := h
  rw [excBind_ok] at h
  obtain ⟨t, _, h⟩ := h
  by_cases h1 : (0 : Rat) < t
  · simp only [h1, if_true] at h
    rw [excBind_ok] at h
    obtain ⟨e, _, h⟩ := h
    by_cases h2 : e ≤ t
    · simp only [h2, if_true] at h
      cases h
      linarith
    · simp only [h2, if_false] at h
      cases h
      exact le_refl 0
  · simp only [h1, if_false] at h
    cases h
    exact le_refl 0

/-- CLAIM C6.  The remaining-time sensor value (sensor.py lines
732-745) equals `time_total - time_elapsed` when `time_total > 0` and
`time_elapsed <= time_total`, and 0 otherwise; and for every snapshot
the computed remaining time is non-negative. -/
theorem time_remaining_spec (data : Jv) (t e : Rat)
    (ht : entryO data "time_total" = some (.num t))
    (he : entryO data "time_elapsed" = some (.num e)) :
    timeRemainingValue data = (if 0 < t ∧ e ≤ t then t - e else 0)
    ∧ ∀ d : Jv, 0 ≤ timeRemainingValue d := by
  constructor
  · obtain ⟨fs, rfl⟩ : ∃ fs, data = .obj fs := by
      cases data <;> simp_all [entryO]
    simp only [entryO_obj] at ht he
    unfold timeRemainingValue timeRemainingCore
    rw [show getDE (.obj fs) "time_total" (.num 0) = .ok (.num t) by simp [ht]]
    rw [show getDE (.obj fs) "time_elapsed" (.num 0) = .ok (.num e) by simp [he]]
    by_cases h1 : (0 : Rat) < t
    · by_cases h2 : e ≤ t
      · simp [Bind.bind, Except.bind, Pure.pure, Except.pure, h1, h2]
      · simp [Bind.bind, Except.bind, Pure.pure, Except.pure, h1, h2]
    · simp [Bind.bind, Except.bind, Pure.pure, Except.pure, h1]
  · intro d
    unfold timeRemainingValue
    cases hc : timeRemainingCore d with
    | ok q => exact timeRemainingCore_nonneg d q hc
    | error _ => exact le_refl 0

/-- Witness for C6 at a concrete snapshot. -/
theorem time_remaining_spec_witness :
    timeRemainingValue (.obj [("time_total", .num 3600), ("time_elapsed", .num 1800)])
      = (if (0 : Rat) < 3600 ∧ (1800 : Rat) ≤ 3600 then 3600 - 1800 else 0) :=
  (time_remaining_spec (.obj [("time_total", .num 3600), ("time_elapsed", .num 1800)])
    3600 1800 rfl rfl).1

/-- CLAIM C7.  For a material id not in the cache whose fetched
document can be parsed by neither the structured XML strategy nor the
regex fallback, `get_material_name` returns the id unchanged and does
not write to the cache. -/
theorem get_material_name_unparseable (guid s : String)
    (cache : List (String × String)) (view : XmlView)
    (h1 : guid ≠ "") (h2 : guid ≠ "unknown")
    (hmiss : cache.lookup guid = none)
    (hs : s ≠ "")
    (hxml : view.parsed = true →
      view.nameText = none ∧ (view.brandText = none ∨ view.materialText = none))
    (hregex : view.regexName = none) :
    get_material_name guid cache (.text s view) = (guid, cache) := by
  unfold get_material_name
  rw [if_neg (by simp [h1, h2]), hmiss]
  simp only
  rw [if_neg hs]
  by_cases hp : view.parsed = true
  · obtain ⟨hn, hbm⟩ := hxml hp
    rw [if_pos hp, hn]
    rcases hbm with hb | hm
    · rw [hb]
    · rw [hm]
      cases view.brandText <;> rfl
  · rw [if_neg hp, hregex]

/-- Witness for C7 at a concrete unparseable document. -/
theorem get_material_name_unparseable_witness :
    get_material_name "abc-123" []
      (.text "garbage" ⟨false, none, none, none, none⟩) = ("abc-123", []) :=
  get_material_name_unparseable "abc-123" "garbage" [] ⟨false, none, none, none, none⟩
    (by decide) (by decide) rfl (by decide) (by intro h; cases h) rfl

/-- CLAIM C8.  `_fetch_data` (api_client.py lines 524-607): an HTTP
status >= 400 and an invalid JSON body each return an empty result
without raising, while connection errors and timeouts propagate. -/
theorem fetch_data_error_taxonomy (urlJson ctJson : Bool) (status : Nat)
    (jb : Option Jv) (tb : String) :
    (400 ≤ status →
      fetch_data urlJson (.resp status jb tb ctJson) = .ok (.obj []))
    ∧ (status < 400 → (ctJson || urlJson) = true → jb = none →
      fetch_data urlJson (.resp status jb tb ctJson) = .ok (.obj []))
    ∧ fetch_data urlJson .errClient = .raiseClient
    ∧ fetch_data urlJson .errTimeout = .raiseTimeout := by
  refine ⟨fun h => ?_, fun h hct hjb => ?_, rfl, rfl⟩
  · simp only [fetch_data]
    rw [if_pos h]
  · simp only [fetch_data]
    rw [if_neg (by omega), if_pos hct, hjb]

/-- Witness for C8 at concrete responses. -/
theorem fetch_data_error_taxonomy_witness :
    fetch_data true (.resp 404 none "err" false) = .ok (.obj [])
    ∧ fetch_data true (.resp 200 none "bad json" true) = .ok (.obj []) := by
  refine ⟨(fetch_data_error_taxonomy true false 404 none "err").1 (by decide),
    (fetch_data_error_taxonomy true true 200 none "bad json").2.1 (by decide) (by decide) rfl⟩

/-- CLAIM C10.  `get_material_name` is total at its public interface
for string inputs: an empty or "unknown" id returns "unknown" with the
cache untouched and without consulting the fetched document (no I/O),
and a failed fetch (network error, timeout) or a non-string body
returns the id itself with the cache untouched. -/
theorem get_material_name_total (guid : String)
    (cache : List (String × String)) (fetch fetch2 : MatFetch) :
    ((guid = "" ∨ guid = "unknown") →
      get_material_name guid cache fetch = ("unknown", cache)
      ∧ get_material_name guid cache fetch = get_material_name guid cache fetch2)
    ∧ (guid ≠ "" → guid ≠ "unknown" → cache.lookup guid = none →
      (fetch = .errClient ∨ fetch = .errTimeout ∨ (∃ v, fetch = .nonText v)
          ∨ (∃ view, fetch = .text "" view)) →
      get_material_name guid cache fetch = (guid, cache)) := by
  constructor
  · intro hg
    unfold get_material_name
    rw [if_pos hg, if_pos hg]
    exact ⟨rfl, rfl⟩
  · intro h1 h2 hmiss hf
    unfold get_material_name
    rw [if_neg (by simp [h1, h2]), hmiss]
    rcases hf with rfl | rfl | ⟨v, rfl⟩ | ⟨view, rfl⟩ <;> simp

/-- Witness for C10 at concrete inputs. -/
theorem get_material_name_total_witness :
    get_material_name "unknown" [] .errClient = ("unknown", [])
    ∧ get_material_name "abc" [] .errTimeout = ("abc", []) := by
  refine ⟨((get_material_name_total "unknown" [] .errClient .errTimeout).1 (Or.inr rfl)).1,
    (get_material_name_total "abc" [] .errTimeout .errTimeout).2 (by decide) (by decide) rfl
      (Or.inr (Or.inl rfl))⟩

/-! Accessors used to state properties about snapshot paths. -/

/-- Element of a list value at an index; `none` for non-lists. -/
def arrAt : Jv → Nat → Option Jv
  | .arr xs, i => xs.get? i
  | _, _ => none

/-- The first head of a snapshot (`data["heads"][0]`), if present. -/
def headsFirst (d : Jv) : Option Jv :=
  (entryO d "heads").bind (fun hs => arrAt hs 0)

/-- Extruder `i` of the first head, if present. -/
def extruderN (d : Jv) (i : Nat) : Option Jv :=
  (headsFirst d).bind (fun h => (entryO h "extruders").bind (fun xs => arrAt xs i))

/-- COUNTEREXAMPLE to C1.  With a last-known-good snapshot available
and the consecutive-failure counter at 0, the first two consecutive
fetch failures are answered with cached data, but already the third
consecutive failure (not the fourth) raises `UpdateFailed`, even though
the last-known-good snapshot is still stored: the code compares the
incremented counter with `<` against the maximum 3 (api_client.py
lines 165-180, 433-454). -/
theorem cache_fallback_bound_cex :
    ((async_update ⟨some (.obj [("status", .str "idle")]), 0⟩
        .errClient .errClient "" "" 0).2.isSnap = true)
    ∧ ((async_update (async_update ⟨some (.obj [("status", .str "idle")]), 0⟩
        .errClient .errClient "" "" 0).1 .errClient .errClient "" "" 1).2.isSnap = true)
    ∧ ((async_update (async_update (async_update
        ⟨some (.obj [("status", .str "idle")]), 0⟩
        .errClient .errClient "" "" 0).1 .errClient .errClient "" "" 1).1
        .errClient .errClient "" "" 2).2 = .failed)
    ∧ ((async_update (async_update ⟨some (.obj [("status", .str "idle")]), 0⟩
        .errClient .errClient "" "" 0).1 .errClient .errClient "" "" 1).1.lastSuccessful
        = some (.obj [("status", .str "idle")])) :=
  ⟨rfl, rfl, rfl, rfl⟩

/-- The snapshot returned in the C2 counterexample run. -/
def statusCexSnap : Jv :=
  .obj [("status", .str "printing"), ("state", .str "finished"),
    ("bed", .obj [("temperature", .obj [("current", .num 0), ("target", .num 0)]),
      ("type", .str "unknown")]),
    ("heads", .arr [.obj [("extruders", .arr [.obj
      [("hotend", .obj [("temperature", .obj [("current", .num 0), ("target", .num 0)]),
        ("id", .str "unknown"), ("statistics", .obj [("material_extruded", .num 0)])]),
       ("active_material", .obj [("length_remaining", .num 0), ("GUID", .str "unknown")])]])]]),
    ("sampleTime", .time 3)]

/-- COUNTEREXAMPLE to C2.  The status correction runs before the
print-job payload is merged key-by-key (api_client.py lines 200-236),
so a print-job payload that itself carries a `status` key overwrites
the corrected value: with primary payload `{"status": "printing"}` and
job payload `{"state": "finished", "status": "printing"}` the cycle
succeeds and the returned snapshot's effective status is `printing`
although the job state is in the completion set. -/
theorem status_correction_cex :
    (async_update ⟨none, 0⟩ (.val (.obj [("status", .str "printing")]))
        (.val (.obj [("state", .str "finished"), ("status", .str "printing")]))
        "" "" 3).2 = .snap statusCexSnap
    ∧ entryO statusCexSnap "status" = some (.str "printing")
    ∧ "finished" ∈ completionStates :=
  ⟨rfl, rfl, by decide⟩

/-- COUNTEREXAMPLE to C3.  The empty-primary-payload soft-failure
branch (api_client.py lines 163-175) returns the cached copy without
refreshing `sampleTime`: with a cached snapshot stamped at tick 5 and a
poll happening at tick 7, the returned snapshot still carries tick 5. -/
theorem sample_time_refresh_cex :
    (async_update ⟨some (.obj [("status", .str "idle"), ("sampleTime", .time 5)]), 0⟩
        (.val (.obj [])) (.val (.obj [])) "" "" 7).2
      = .snap (.obj [("status", .str "idle"), ("sampleTime", .time 5),
          ("using_cached_data", .bool true)])
    ∧ entryO (.obj [("status", .str "idle"), ("sampleTime", .time 5),
          ("using_cached_data", .bool true)]) "sampleTime" = some (.time 5)
    ∧ (5 : Nat) ≠ 7 :=
  ⟨rfl, rfl, by decide⟩

/-- The snapshot returned in the C4 counterexample run. -/
def defaultFillCexSnap : Jv :=
  .obj [("status", .str "idle"), ("state", .str "idle"), ("progress", .num 0),
    ("time_total", .num 0), ("time_elapsed", .num 0),
    ("bed", .obj [("temperature", .obj [("current", .num 0), ("target", .num 0)]),
      ("type", .str "unknown")]),
    ("heads", .arr [.obj [("extruders", .arr [.obj
      [("hotend", .obj [("temperature", .obj [("current", .num 0), ("target", .num 0)]),
        ("id", .str "unknown"), ("statistics", .obj [("material_extruded", .num 0)])]),
       ("active_material", .obj [("length_remaining", .num 0), ("GUID", .str "unknown")])]])]]),
    ("sampleTime", .time 3)]

/-- COUNTEREXAMPLE to C4.  The default-fill pass creates a second
extruder's required paths only when the upstream data already has at
least two extruders (api_client.py line 338); a successful cycle whose
payload mentions no heads at all ends with exactly one extruder, so the
required extruder-index-1 paths hold no value. -/
theorem default_fill_cex :
    (async_update ⟨none, 0⟩ (.val (.obj [("status", .str "idle")]))
        (.val (.obj [])) "" "" 3).2 = .snap defaultFillCexSnap
    ∧ (async_update ⟨none, 0⟩ (.val (.obj [("status", .str "idle")]))
        (.val (.obj [])) "" "" 3).1.consecutiveErrors = 0
    ∧ extruderN defaultFillCexSnap 1 = none :=
  ⟨rfl, rfl, rfl⟩

/-- The first component of the three failure handlers keeps
`_last_successful_data` untouched. -/
theorem exceptHandler_lastSuccessful (st : ClientState) (now : Nat) (wt : Bool) :
    (exceptHandler st now wt).1.lastSuccessful = st.lastSuccessful := by
  unfold exceptHandler
  rcases st with ⟨ls, n⟩
  cases ls
  · rfl
  · simp only
    split
    · split <;> rfl
    · rfl

/-- The empty-payload branch keeps `_last_successful_data` untouched. -/
theorem emptyPayloadPath_lastSuccessful (st : ClientState) (now : Nat) :
    (emptyPayloadPath st now).1.lastSuccessful = st.lastSuccessful := by
  unfold emptyPayloadPath
  rcases st with ⟨ls, n⟩
  cases ls
  · exact exceptHandler_lastSuccessful ⟨none, n + 1⟩ now true
  · simp only
    split
    · split <;> rfl
    · exact exceptHandler_lastSuccessful _ now true

/-- CLAIM C9.  `_last_successful_data` is written only at the end of a
fully successful update cycle (api_client.py line 512): every call of
`async_update` either leaves it exactly as it was (all soft- and
hard-failure paths), or the call was fully successful, returned a
snapshot, stored that very snapshot as last-known-good and reset the
consecutive-error counter. -/
theorem last_successful_write_policy (st : ClientState) (pf jf : FetchSim)
    (name1 name2 : String) (now : Nat) :
    (async_update st pf jf name1 name2 now).1.lastSuccessful = st.lastSuccessful
    ∨ (∃ d, (async_update st pf jf name1 name2 now).2 = .snap d
        ∧ (async_update st pf jf name1 name2 now).1.lastSuccessful = some d
        ∧ (async_update st pf jf name1 name2 now).1.consecutiveErrors = 0) := by
  unfold async_update
  cases pf with
  | errClient => exact Or.inl (exceptHandler_lastSuccessful st now true)
  | errTimeout => exact Or.inl (exceptHandler_lastSuccessful st now true)
  | val v =>
      by_cases hv : truthyJ v = true
      · simp only [hv, if_true]
        cases hs : successBody v (jobOf jf) name1 name2 now with
        | ok d => exact Or.inr ⟨d, rfl, rfl, rfl⟩
        | error _ => exact Or.inl (exceptHandler_lastSuccessful st now true)
      · simp only [hv, if_false]
        exact Or.inl (emptyPayloadPath_lastSuccessful st now)

/-! Lemmas about field lists and the ensure-combinators, building up to
idempotence of the default-fill pass. -/

theorem lookupF_insertF_self (fs : List (String × Jv)) (k : String) (v : Jv) :
    lookupF (insertF fs k v) k = some v := by
  induction fs with
  | nil => simp [insertF, lookupF]
  | cons kv rest ih =>
      by_cases h : kv.1 = k
      · simp [insertF, lookupF, h]
      · simp [insertF, lookupF, h, ih]

theorem lookupF_insertF_ne (fs : List (String × Jv)) (k j : String) (v : Jv)
    (h : j ≠ k) : lookupF (insertF fs k v) j = lookupF fs j := by
  have hkj : k ≠ j := Ne.symm h
  induction fs with
  | nil => simp [insertF, lookupF, hkj]
  | cons kv rest ih =>
      obtain ⟨k1, v1⟩ := kv
      by_cases hk : k1 = k
      · subst hk
        simp [insertF, lookupF, hkj]
      · by_cases hj : k1 = j
        · simp [insertF, lookupF, hk, hj, h]
        · simp [insertF, lookupF, hk, hj, ih]

theorem insertF_lookupF_self (fs : List (String × Jv)) (k : String) (v : Jv)
    (h : lookupF fs k = some v) : insertF fs k v = fs := by
  induction fs with
  | nil => simp [lookupF] at h
  | cons kv rest ih =>
      obtain ⟨k1, v1⟩ := kv
      by_cases hk : k1 = k
      · subst hk
        simp only [lookupF, if_pos rfl] at h
        injection h with h
        subst h
        simp [insertF]
      · simp only [lookupF, if_neg hk] at h
        simp [insertF, hk, ih h]

/-- The Prop corresponding to Python `k in d` evaluating to `True`. -/
def containsT (d : Jv) (k : String) : Prop := containsE d k = .ok true

theorem containsT_obj_iff (fs : List (String × Jv)) (k : String) :
    containsT (.obj fs) k ↔ (lookupF fs k).isSome := by
  simp [containsT, containsE]

theorem containsT_of_entryO {d : Jv} {k : String} {v : Jv}
    (h : entryO d k = some v) : containsT d k := by
  cases d <;> simp [entryO] at h
  rw [containsT_obj_iff, h]
  rfl

theorem entryO_isSome_of_containsT {fs : List (String × Jv)} {k : String}
    (h : containsT (.obj fs) k) : (entryO (.obj fs) k).isSome := by
  rw [containsT_obj_iff] at h
  simpa [entryO] using h

/-- Dict insertion preserves a Python-`in` fact at every key. -/
theorem containsT_insertF {fs : List (String × Jv)} {j k : String} {v : Jv}
    (h : containsT (.obj fs) j) : containsT (.obj (insertF fs k v)) j := by
  rw [containsT_obj_iff] at h ⊢
  by_cases hjk : j = k
  · subst hjk
    rw [lookupF_insertF_self]
    rfl
  · rw [lookupF_insertF_ne _ _ _ _ hjk]
    exact h

/-! `ensureKey` lemmas. -/

theorem ensureKey_cases {k : String} {dflt d d' : Jv}
    (h : ensureKey k dflt d = .ok d') :
    (containsT d k ∧ d' = d)
    ∨ (∃ fs, d = .obj fs ∧ lookupF fs k = none ∧ d' = .obj (insertF fs k dflt)) := by
  unfold ensureKey at h
  rw [excBind_ok] at h
  obtain ⟨c, hc, h⟩ := h
  cases c with
  | true =>
      left
      refine ⟨hc, ?_⟩
      simpa [Pure.pure, Except.pure] using h.symm
  | false =>
      right
      cases d <;> simp [containsE] at hc <;> simp [setItemE] at h
      case obj fs =>
        refine ⟨fs, rfl, ?_, h.symm⟩
        cases hl : lookupF fs k
        · rfl
        · rw [hl] at hc; cases hc

theorem ensureKey_id {k : String} {dflt d : Jv} (h : containsT d k) :
    ensureKey k dflt d = .ok d := by
  unfold ensureKey
  rw [excBind_ok]
  exact ⟨true, h, rfl⟩

theorem ensureKey_post {k : String} {dflt d d' : Jv}
    (h : ensureKey k dflt d = .ok d') : containsT d' k := by
  rcases ensureKey_cases h with ⟨hc, rfl⟩ | ⟨fs, rfl, _, rfl⟩
  · exact hc
  · rw [containsT_obj_iff, lookupF_insertF_self]
    rfl

theorem ensureKey_preserves_containsT {k j : String} {dflt d d' : Jv}
    (hj : containsT d j) (h : ensureKey k dflt d = .ok d') : containsT d' j := by
  rcases ensureKey_cases h with ⟨_, rfl⟩ | ⟨fs, rfl, _, rfl⟩
  · exact hj
  · exact containsT_insertF hj

theorem ensureKey_frame {k j : String} {dflt d d' : Jv}
    (h : ensureKey k dflt d = .ok d') (hj : j ≠ k) :
    entryO d' j = entryO d j := by
  rcases ensureKey_cases h with ⟨_, rfl⟩ | ⟨fs, rfl, _, rfl⟩
  · rfl
  · simp [entryO, lookupF_insertF_ne _ _ _ _ hj]

theorem ensureKey_isObj {k : String} {dflt d d' : Jv}
    (h : ensureKey k dflt d = .ok d') : isObjB d' = isObjB d := by
  rcases ensureKey_cases h with ⟨_, rfl⟩ | ⟨fs, rfl, _, rfl⟩ <;> rfl

theorem ensureKey_obj_ok (fs : List (String × Jv)) (k : String) (dflt : Jv) :
    ∃ d', ensureKey k dflt (.obj fs) = .ok d' := by
  unfold ensureKey
  cases h : (lookupF fs k).isSome
  · exact ⟨.obj (insertF fs k dflt), by simp [containsE, h, Bind.bind, Except.bind, setItemE]⟩
  · exact ⟨.obj fs, by simp [containsE, h, Bind.bind, Except.bind, Pure.pure, Except.pure]⟩

/-! `ensureKeyWith` lemmas. -/

theorem ensureKeyWith_cases {k : String} {dflt d d' : Jv} {f : Jv → Exc Jv}
    (h : ensureKeyWith k dflt f d = .ok d') :
    ∃ d0 fs0 v v', ensureKey k dflt d = .ok d0 ∧ d0 = .obj fs0
      ∧ lookupF fs0 k = some v ∧ f v = .ok v'
      ∧ d' = .obj (insertF fs0 k v') := by
  unfold ensureKeyWith at h
  rw [excBind_ok] at h
  obtain ⟨d0, hd0, h⟩ := h
  rw [excBind_ok] at h
  obtain ⟨v, hv, h⟩ := h
  rw [excBind_ok] at h
  obtain ⟨v', hv', h⟩ := h
  cases d0 <;> simp [getItemE] at hv
  case obj fs0 =>
    simp only [setItemE, Except.ok.injEq] at h
    cases hl : lookupF fs0 k
    · rw [hl] at hv; cases hv
    · rw [hl] at hv
      cases hv
      exact ⟨.obj fs0, fs0, _, v', hd0, rfl, hl, hv', h.symm⟩

theorem ensureKeyWith_isObj {k : String} {dflt d d' : Jv} {f : Jv → Exc Jv}
    (h : ensureKeyWith k dflt f d = .ok d') :
    isObjB d = true ∧ isObjB d' = true := by
  obtain ⟨d0, fs0, v, v', h0, rfl, _, _, rfl⟩ := ensureKeyWith_cases h
  have := ensureKey_isObj h0
  exact ⟨by rw [← this]; rfl, rfl⟩

theorem ensureKeyWith_entry {k : String} {dflt d d' : Jv} {f : Jv → Exc Jv}
    (h : ensureKeyWith k dflt f d = .ok d') :
    ∃ v v', entryO d' k = some v' ∧ f v = .ok v' := by
  obtain ⟨d0, fs0, v, v', _, rfl, _, hf, rfl⟩ := ensureKeyWith_cases h
  exact ⟨v, v', by simp [entryO, lookupF_insertF_self], hf⟩

theorem ensureKeyWith_frame {k j : String} {dflt d d' : Jv} {f : Jv → Exc Jv}
    (h : ensureKeyWith k dflt f d = .ok d') (hj : j ≠ k) :
    entryO d' j = entryO d j := by
  obtain ⟨d0, fs0, v, v', h0, rfl, _, _, rfl⟩ := ensureKeyWith_cases h
  rw [show entryO (Jv.obj (insertF fs0 k v')) j = entryO (Jv.obj fs0) j by
    simp [entryO, lookupF_insertF_ne _ _ _ _ hj]]
  exact ensureKey_frame h0 hj

theorem ensureKeyWith_preserves_containsT {k j : String} {dflt d d' : Jv}
    {f : Jv → Exc Jv} (hj : containsT d j)
    (h : ensureKeyWith k dflt f d = .ok d') : containsT d' j := by
  obtain ⟨d0, fs0, v, v', h0, rfl, _, _, rfl⟩ := ensureKeyWith_cases h
  exact containsT_insertF (ensureKey_preserves_containsT hj h0)

theorem ensureKeyWith_fixed {k : String} {dflt d v : Jv} {f : Jv → Exc Jv}
    (hobj : isObjB d = true) (hent : entryO d k = some v) (hf : f v = .ok v) :
    ensureKeyWith k dflt f d = .ok d := by
  obtain ⟨fs, rfl⟩ : ∃ fs, d = .obj fs := by
    cases d <;> simp_all [isObjB]
  simp only [entryO_obj] at hent
  unfold ensureKeyWith
  refine excBind_ok_of (ensureKey_id (by rw [containsT_obj_iff, hent]; rfl)) ?_
  refine excBind_ok_of (show getItemE (Jv.obj fs) k = .ok v by simp [getItemE, hent]) ?_
  refine excBind_ok_of hf ?_
  simp [setItemE, insertF_lookupF_self fs k v hent]

/-! `ensureTruthyKeyWith` lemmas. -/

theorem ensureTruthyKeyWith_cases {k : String} {dflt d d' : Jv} {f : Jv → Exc Jv}
    (h : ensureTruthyKeyWith k dflt f d = .ok d') :
    ∃ d0 fs0 v v', d0 = .obj fs0
      ∧ (d0 = d ∨ setItemE d k dflt = .ok d0)
      ∧ lookupF fs0 k = some v ∧ f v = .ok v'
      ∧ d' = .obj (insertF fs0 k v') := by
  unfold ensureTruthyKeyWith at h
  rw [excBind_ok] at h
  obtain ⟨need, _, h⟩ := h
  rw [excBind_ok] at h
  obtain ⟨d0, hd0, h⟩ := h
  rw [excBind_ok] at h
  obtain ⟨v, hv, h⟩ := h
  rw [excBind_ok] at h
  obtain ⟨v', hv', h⟩ := h
  cases d0 <;> simp [getItemE] at hv
  case obj fs0 =>
    simp only [setItemE, Except.ok.injEq] at h
    cases hl : lookupF fs0 k
    · rw [hl] at hv; cases hv
    · rw [hl] at hv
      cases hv
      refine ⟨.obj fs0, fs0, _, v', rfl, ?_, hl, hv', h.symm⟩
      cases need
      · left
        simpa [Pure.pure, Except.pure] using hd0.symm
      · right
        simpa using hd0

theorem ensureTruthyKeyWith_isObj {k : String} {dflt d d' : Jv} {f : Jv → Exc Jv}
    (h : ensureTruthyKeyWith k dflt f d = .ok d') :
    isObjB d = true ∧ isObjB d' = true := by
  obtain ⟨d0, fs0, v, v', rfl, hd0, _, _, rfl⟩ := ensureTruthyKeyWith_cases h
  rcases hd0 with hd0 | hd0
  · rw [← hd0]
    exact ⟨rfl, rfl⟩
  · cases d <;> simp [setItemE] at hd0
    exact ⟨rfl, rfl⟩

theorem ensureTruthyKeyWith_entry {k : String} {dflt d d' : Jv} {f : Jv → Exc Jv}
    (h : ensureTruthyKeyWith k dflt f d = .ok d') :
    ∃ v v', entryO d' k = some v' ∧ f v = .ok v' := by
  obtain ⟨d0, fs0, v, v', rfl, _, _, hf, rfl⟩ := ensureTruthyKeyWith_cases h
  exact ⟨v, v', by simp [entryO, lookupF_insertF_self], hf⟩

theorem ensureTruthyKeyWith_frame {k j : String} {dflt d d' : Jv} {f : Jv → Exc Jv}
    (h : ensureTruthyKeyWith k dflt f d = .ok d') (hj : j ≠ k) :
    entryO d' j = entryO d j := by
  obtain ⟨d0, fs0, v, v', rfl, hd0, _, _, rfl⟩ := ensureTruthyKeyWith_cases h
  rcases hd0 with hd0 | hd0
  · rw [← hd0]
    simp [entryO, lookupF_insertF_ne _ _ _ _ hj]
  · cases d <;> simp [setItemE] at hd0
    case obj fs =>
      cases hd0
      simp [entryO, lookupF_insertF_ne _ _ _ _ hj]

theorem ensureTruthyKeyWith_fixed {k : String} {dflt d v : Jv} {f : Jv → Exc Jv}
    (hobj : isObjB d = true) (hent : entryO d k = some v)
    (htr : truthyJ v = true) (hf : f v = .ok v) :
    ensureTruthyKeyWith k dflt f d = .ok d := by
  obtain ⟨fs, rfl⟩ : ∃ fs, d = .obj fs := by
    cases d <;> simp_all [isObjB]
  simp only [entryO_obj] at hent
  unfold ensureTruthyKeyWith
  refine excBind_ok_of (show truthyNeed k (Jv.obj fs) = .ok false by
    simp [truthyNeed, containsE, getItemE, hent, Bind.bind, Except.bind,
      Pure.pure, Except.pure, htr]) ?_
  refine excBind_ok_of (show (if false then setItemE (Jv.obj fs) k dflt
      else pure (Jv.obj fs)) = Except.ok (Jv.obj fs) by
    simp [Pure.pure, Except.pure]) ?_
  refine excBind_ok_of (show getItemE (Jv.obj fs) k = .ok v by
    simp [getItemE, hent]) ?_
  refine excBind_ok_of hf ?_
  simp [setItemE, insertF_lookupF_self fs k v hent]

/-! Invariants established by the default-fill pass, and the post /
fixed-point lemmas proving its idempotence. -/

/-- What `fillTemperature` guarantees about a temperature container. -/
def InvTemp (t : Jv) : Prop := containsT t "current" ∧ containsT t "target"

/-- What `fillStatistics` guarantees about a statistics container. -/
def InvStats (s : Jv) : Prop := containsT s "material_extruded"

/-- What `fillActiveMaterial` guarantees about an active material. -/
def InvAM (am : Jv) : Prop := containsT am "length_remaining" ∧ containsT am "GUID"

/-- What `fillHotend` guarantees about a hotend. -/
def InvHotend (h : Jv) : Prop :=
  isObjB h = true
  ∧ (∃ t, entryO h "temperature" = some t ∧ InvTemp t)
  ∧ containsT h "id"
  ∧ (∃ s, entryO h "statistics" = some s ∧ InvStats s)

/-- What `fillExtruder` guarantees about an extruder. -/
def InvExtruder (e : Jv) : Prop :=
  isObjB e = true
  ∧ (∃ h, entryO e "hotend" = some h ∧ InvHotend h)
  ∧ (∃ am, entryO e "active_material" = some am ∧ InvAM am)

/-- What `fillExtruders` guarantees about the extruders list. -/
def InvExtruders (xs : Jv) : Prop :=
  ∃ e rest, xs = .arr (e :: rest) ∧ InvExtruder e
    ∧ (rest = [] ∨ ∃ e2 rest2, rest = e2 :: rest2 ∧ InvExtruder e2)

/-- What `fillHead` guarantees about the first head. -/
def InvHead (h : Jv) : Prop :=
  isObjB h = true ∧ ∃ xs, entryO h "extruders" = some xs ∧ InvExtruders xs

/-- What `fillHeads` guarantees about the heads list. -/
def InvHeads (hs : Jv) : Prop :=
  ∃ h rest, hs = .arr (h :: rest) ∧ InvHead h

/-- What `fillBed` guarantees about the bed. -/
def InvBed (b : Jv) : Prop :=
  isObjB b = true
  ∧ (∃ t, entryO b "temperature" = some t ∧ InvTemp t)
  ∧ containsT b "type"

/-- What `fillRequiredFields` guarantees about the merged data. -/
def InvTop (d : Jv) : Prop :=
  isObjB d = true
  ∧ (∃ b, entryO d "bed" = some b ∧ InvBed b)
  ∧ (∃ hs, entryO d "heads" = some hs ∧ InvHeads hs)

theorem truthyJ_of_invExtruders {xs : Jv} (h : InvExtruders xs) :
    truthyJ xs = true := by
  obtain ⟨e, rest, rfl, _⟩ := h
  rfl

theorem truthyJ_of_invHeads {hs : Jv} (h : InvHeads hs) :
    truthyJ hs = true := by
  obtain ⟨x, rest, rfl, _⟩ := h
  rfl

/-! `fillTemperature`. -/

theorem fillTemperature_post {t t' : Jv} (h : fillTemperature t = .ok t') :
    InvTemp t' := by
  unfold fillTemperature at h
  rw [excBind_ok] at h
  obtain ⟨t1, h1, h2⟩ := h
  exact ⟨ensureKey_preserves_containsT (ensureKey_post h1) h2, ensureKey_post h2⟩

theorem fillTemperature_fixed {t : Jv} (h : InvTemp t) :
    fillTemperature t = .ok t := by
  unfold fillTemperature
  exact excBind_ok_of (ensureKey_id h.1) (ensureKey_id h.2)

/-! `fillStatistics`. -/

theorem fillStatistics_post {s s' : Jv} (h : fillStatistics s = .ok s') :
    InvStats s' := ensureKey_post h

theorem fillStatistics_fixed {s : Jv} (h : InvStats s) :
    fillStatistics s = .ok s := ensureKey_id h

/-! `fillActiveMaterial`. -/

theorem fillActiveMaterial_post {am am' : Jv}
    (h : fillActiveMaterial am = .ok am') : InvAM am' := by
  unfold fillActiveMaterial at h
  rw [excBind_ok] at h
  obtain ⟨am1, h1, h2⟩ := h
  exact ⟨ensureKey_preserves_containsT (ensureKey_post h1) h2, ensureKey_post h2⟩

theorem fillActiveMaterial_fixed {am : Jv} (h : InvAM am) :
    fillActiveMaterial am = .ok am := by
  unfold fillActiveMaterial
  exact excBind_ok_of (ensureKey_id h.1) (ensureKey_id h.2)

/-! `fillHotend`. -/

theorem fillHotend_post {h h' : Jv} (hh : fillHotend h = .ok h') :
    InvHotend h' := by
  unfold fillHotend at hh
  rw [excBind_ok] at hh
  obtain ⟨hA, h1, hh⟩ := hh
  rw [excBind_ok] at hh
  obtain ⟨hB, h2, h3⟩ := hh
  obtain ⟨t0, t', het, hft⟩ := ensureKeyWith_entry h1
  have htB : entryO hB "temperature" = some t' := by
    rw [ensureKey_frame h2 (by decide), het]
  have htH : entryO h' "temperature" = some t' := by
    rw [ensureKeyWith_frame h3 (by decide), htB]
  obtain ⟨s0, s', hes, hfs⟩ := ensureKeyWith_entry h3
  have hidB : containsT hB "id" := ensureKey_post h2
  refine ⟨(ensureKeyWith_isObj h3).2, ⟨t', htH, fillTemperature_post hft⟩,
    ensureKeyWith_preserves_containsT hidB h3,
    ⟨s', hes, fillStatistics_post hfs⟩⟩

theorem fillHotend_fixed {h : Jv} (hh : InvHotend h) :
    fillHotend h = .ok h := by
  obtain ⟨hobj, ⟨t, het, hit⟩, hid, ⟨s, hes, his⟩⟩ := hh
  unfold fillHotend
  refine excBind_ok_of (ensureKeyWith_fixed hobj het (fillTemperature_fixed hit)) ?_
  refine excBind_ok_of (ensureKey_id hid) ?_
  exact ensureKeyWith_fixed hobj hes (fillStatistics_fixed his)

/-! `fillExtruder`. -/

theorem fillExtruder_post {e e' : Jv} (he : fillExtruder e = .ok e') :
    InvExtruder e' := by
  unfold fillExtruder at he
  rw [excBind_ok] at he
  obtain ⟨e1, h1, h2⟩ := he
  obtain ⟨h0, h', heh, hfh⟩ := ensureKeyWith_entry h1
  have hehE : entryO e' "hotend" = some h' := by
    rw [ensureKeyWith_frame h2 (by decide), heh]
  obtain ⟨am0, am', heam, hfam⟩ := ensureKeyWith_entry h2
  exact ⟨(ensureKeyWith_isObj h2).2, ⟨h', hehE, fillHotend_post hfh⟩,
    ⟨am', heam, fillActiveMaterial_post hfam⟩⟩

theorem fillExtruder_fixed {e : Jv} (he : InvExtruder e) :
    fillExtruder e = .ok e := by
  obtain ⟨hobj, ⟨h, heh, hih⟩, ⟨am, heam, hiam⟩⟩ := he
  unfold fillExtruder
  refine excBind_ok_of (ensureKeyWith_fixed hobj heh (fillHotend_fixed hih)) ?_
  exact ensureKeyWith_fixed hobj heam (fillActiveMaterial_fixed hiam)

/-! `fillExtruders`. -/

theorem fillExtruders_post {xs xs' : Jv} (h : fillExtruders xs = .ok xs') :
    InvExtruders xs' := by
  unfold fillExtruders at h
  rw [excBind_ok] at h
  obtain ⟨e, he, h⟩ := h
  rw [excBind_ok] at h
  obtain ⟨e', hfe, h⟩ := h
  rw [excBind_ok] at h
  obtain ⟨xs1, hset, h⟩ := h
  rw [excBind_ok] at h
  obtain ⟨n, hn, h⟩ := h
  obtain ⟨x0, rest, rfl, rfl⟩ :
      ∃ x0 rest, xs = .arr (x0 :: rest) ∧ xs1 = .arr (e' :: rest) := by
    cases xs <;> simp [setIndex0E] at hset
    case arr l =>
      cases l with
      | nil => simp [setIndex0E] at hset
      | cons a t => exact ⟨a, t, rfl, by simpa [setIndex0E] using hset.symm⟩
  have hn' : n = rest.length + 1 := by simpa [lenE, Except.ok.injEq] using hn.symm
  by_cases hb : 1 < n
  · rw [if_pos hb] at h
    rw [excBind_ok] at h
    obtain ⟨e2, he2, h⟩ := h
    rw [excBind_ok] at h
    obtain ⟨e2', hfe2, h⟩ := h
    obtain ⟨y, rest2, rfl⟩ : ∃ y rest2, rest = y :: rest2 := by
      cases rest with
      | nil => rw [hn'] at hb; simp at hb
      | cons y r2 => exact ⟨y, r2, rfl⟩
    have hye : y = e2 := by simpa [index1E] using he2
    subst hye
    have : xs' = .arr (e' :: e2' :: rest2) := by
      simpa [setIndex1E, Except.ok.injEq] using h.symm
    subst this
    exact ⟨e', e2' :: rest2, rfl, fillExtruder_post hfe,
      Or.inr ⟨e2', rest2, rfl, fillExtruder_post hfe2⟩⟩
  · rw [if_neg hb] at h
    have : xs' = .arr (e' :: rest) := by
      simpa [Pure.pure, Except.pure] using h.symm
    subst this
    have : rest = [] := by
      cases rest with
      | nil => rfl
      | cons y r2 =>
          exact absurd (by rw [hn']; simp only [List.length_cons]; omega) hb
    subst this
    exact ⟨e', [], rfl, fillExtruder_post hfe, Or.inl rfl⟩

theorem fillExtruders_fixed {xs : Jv} (h : InvExtruders xs) :
    fillExtruders xs = .ok xs := by
  obtain ⟨e, rest, rfl, hie, hrest⟩ := h
  unfold fillExtruders
  refine excBind_ok_of (show index0E (.arr (e :: rest)) = .ok e from rfl) ?_
  refine excBind_ok_of (fillExtruder_fixed hie) ?_
  refine excBind_ok_of (show setIndex0E (.arr (e :: rest)) e = .ok (.arr (e :: rest))
    from rfl) ?_
  refine excBind_ok_of (show lenE (.arr (e :: rest)) = .ok (e :: rest).length
    from rfl) ?_
  rcases hrest with rfl | ⟨e2, rest2, rfl, hie2⟩
  · simp [Pure.pure, Except.pure]
  · rw [if_pos (by simp)]
    refine excBind_ok_of (show index1E (.arr (e :: e2 :: rest2)) = .ok e2 from rfl) ?_
    refine excBind_ok_of (fillExtruder_fixed hie2) ?_
    rfl

/-! `fillHead`, `fillHeads`, `fillBed`, `fillRequiredFields`. -/

theorem fillHead_post {h h' : Jv} (hh : fillHead h = .ok h') : InvHead h' := by
  unfold fillHead at hh
  obtain ⟨xs0, xs', hent, hf⟩ := ensureTruthyKeyWith_entry hh
  exact ⟨(ensureTruthyKeyWith_isObj hh).2, xs', hent, fillExtruders_post hf⟩

theorem fillHead_fixed {h : Jv} (hh : InvHead h) : fillHead h = .ok h := by
  obtain ⟨hobj, xs, hent, hixs⟩ := hh
  exact ensureTruthyKeyWith_fixed hobj hent (truthyJ_of_invExtruders hixs)
    (fillExtruders_fixed hixs)

theorem fillHeads_post {hs hs' : Jv} (h : fillHeads hs = .ok hs') :
    InvHeads hs' := by
  unfold fillHeads at h
  rw [excBind_ok] at h
  obtain ⟨h0, hh0, h⟩ := h
  rw [excBind_ok] at h
  obtain ⟨h1, hf, hset⟩ := h
  cases hs <;> simp [setIndex0E] at hset
  case arr l =>
    cases l with
    | nil => simp [setIndex0E] at hset
    | cons a t =>
        have : hs' = .arr (h1 :: t) := by simpa [setIndex0E] using hset.symm
        subst this
        exact ⟨h1, t, rfl, fillHead_post hf⟩

theorem fillHeads_fixed {hs : Jv} (h : InvHeads hs) : fillHeads hs = .ok hs := by
  obtain ⟨h0, rest, rfl, hih⟩ := h
  unfold fillHeads
  refine excBind_ok_of (show index0E (.arr (h0 :: rest)) = .ok h0 from rfl) ?_
  refine excBind_ok_of (fillHead_fixed hih) ?_
  rfl

theorem fillBed_post {b b' : Jv} (h : fillBed b = .ok b') : InvBed b' := by
  unfold fillBed at h
  rw [excBind_ok] at h
  obtain ⟨b1, h1, h2⟩ := h
  obtain ⟨t0, t', het, hft⟩ := ensureKeyWith_entry h1
  have : entryO b' "temperature" = some t' := by
    rw [ensureKey_frame h2 (by decide), het]
  refine ⟨?_, ⟨t', this, fillTemperature_post hft⟩, ensureKey_post h2⟩
  rw [ensureKey_isObj h2]
  exact (ensureKeyWith_isObj h1).2

theorem fillBed_fixed {b : Jv} (h : InvBed b) : fillBed b = .ok b := by
  obtain ⟨hobj, ⟨t, het, hit⟩, hty⟩ := h
  unfold fillBed
  exact excBind_ok_of (ensureKeyWith_fixed hobj het (fillTemperature_fixed hit))
    (ensureKey_id hty)

theorem fillRequiredFields_post {d d' : Jv} (h : fillRequiredFields d = .ok d') :
    InvTop d' := by
  unfold fillRequiredFields at h
  rw [excBind_ok] at h
  obtain ⟨d1, h1, h2⟩ := h
  obtain ⟨b0, b', heb, hfb⟩ := ensureKeyWith_entry h1
  have hebD : entryO d' "bed" = some b' := by
    rw [ensureTruthyKeyWith_frame h2 (by decide), heb]
  obtain ⟨hs0, hs', hehs, hfhs⟩ := ensureTruthyKeyWith_entry h2
  exact ⟨(ensureTruthyKeyWith_isObj h2).2, ⟨b', hebD, fillBed_post hfb⟩,
    ⟨hs', hehs, fillHeads_post hfhs⟩⟩

theorem fillRequiredFields_fixed {d : Jv} (h : InvTop d) :
    fillRequiredFields d = .ok d := by
  obtain ⟨hobj, ⟨b, heb, hib⟩, ⟨hs, hehs, hihs⟩⟩ := h
  unfold fillRequiredFields
  refine excBind_ok_of (ensureKeyWith_fixed hobj heb (fillBed_fixed hib)) ?_
  exact ensureTruthyKeyWith_fixed hobj hehs (truthyJ_of_invHeads hihs)
    (fillHeads_fixed hihs)

/-- CLAIM C5.  The default-fill pass (api_client.py lines 259-382) is
idempotent: whenever it completes on an input, running it again on the
result returns that result unchanged. -/
theorem default_fill_idempotent (d d' : Jv) (h : fillRequiredFields d = .ok d') :
    fillRequiredFields d' = .ok d' :=
  fillRequiredFields_fixed (fillRequiredFields_post h)

/-- Witness for C5 at the empty dictionary. -/
theorem default_fill_idempotent_witness :
    fillRequiredFields (.obj []) =
        .ok (.obj [("bed", .obj [("temperature", .obj [("current", .num 0),
            ("target", .num 0)]), ("type", .str "unknown")]),
          ("heads", .arr [.obj [("extruders", .arr [.obj
            [("hotend", .obj [("temperature", .obj [("current", .num 0),
                ("target", .num 0)]), ("id", .str "unknown"),
              ("statistics", .obj [("material_extruded", .num 0)])]),
             ("active_material", .obj [("length_remaining", .num 0),
              ("GUID", .str "unknown")])]])]])])
    ∧ fillRequiredFields (.obj [("bed", .obj [("temperature", .obj [("current", .num 0),
            ("target", .num 0)]), ("type", .str "unknown")]),
          ("heads", .arr [.obj [("extruders", .arr [.obj
            [("hotend", .obj [("temperature", .obj [("current", .num 0),
                ("target", .num 0)]), ("id", .str "unknown"),
              ("statistics", .obj [("material_extruded", .num 0)])]),
             ("active_material", .obj [("length_remaining", .num 0),
              ("GUID", .str "unknown")])]])]])]) =
        .ok (.obj [("bed", .obj [("temperature", .obj [("current", .num 0),
            ("target", .num 0)]), ("type", .str "unknown")]),
          ("heads", .arr [.obj [("extruders", .arr [.obj
            [("hotend", .obj [("temperature", .obj [("current", .num 0),
                ("target", .num 0)]), ("id", .str "unknown"),
              ("statistics", .obj [("material_extruded", .num 0)])]),
             ("active_material", .obj [("length_remaining", .num 0),
              ("GUID", .str "unknown")])]])]])]) :=
  ⟨rfl, default_fill_idempotent (.obj []) _ rfl⟩

/-! Failure-path lemmas for `async_update`. -/

/-- A primary-fetch outcome that counts as a fetch failure: connection
error, timeout, or a falsy (empty) payload. -/
def IsFailFetch (f : FetchSim) : Prop :=
  f = .errClient ∨ f = .errTimeout ∨ ∃ v, f = .val v ∧ truthyJ v = false

theorem cachedCopy_obj (fs : List (String × Jv)) (wt : Bool) (now : Nat) :
    cachedCopy (.obj fs) wt now =
      .ok (if wt then
          .obj (insertF (insertF fs "using_cached_data" (.bool true)) "sampleTime" (.time now))
        else .obj (insertF fs "using_cached_data" (.bool true))) := by
  cases wt <;> rfl

theorem exceptHandler_soft (st : ClientState) {L : Jv} (now : Nat) (wt : Bool)
    (hlast : st.lastSuccessful = some L) (htr : truthyJ L = true)
    (fs : List (String × Jv)) (hL : L = .obj fs)
    (hn : st.consecutiveErrors + 1 < maxConsecutiveErrors) :
    exceptHandler st now wt =
      (⟨some L, st.consecutiveErrors + 1⟩,
        .snap (if wt then
            .obj (insertF (insertF fs "using_cached_data" (.bool true)) "sampleTime" (.time now))
          else .obj (insertF fs "using_cached_data" (.bool true)))) := by
  subst hL
  unfold exceptHandler
  rw [hlast]
  simp only [htr, Bool.true_and, decide_eq_true_eq, hn, if_pos, cachedCopy_obj]

theorem exceptHandler_hard {st : ClientState} (now : Nat) (wt : Bool)
    (hn : ¬ st.consecutiveErrors + 1 < maxConsecutiveErrors) :
    exceptHandler st now wt =
      (⟨st.lastSuccessful, st.consecutiveErrors + 1⟩, .failed) := by
  unfold exceptHandler
  cases hl : st.lastSuccessful with
  | none => rfl
  | some cache =>
      simp only [decide_eq_true_eq]
      rw [if_neg]
      simp [hn]

theorem exceptHandler_err (st : ClientState) (now : Nat) (wt : Bool) :
    (exceptHandler st now wt).1.consecutiveErrors = st.consecutiveErrors + 1 := by
  unfold exceptHandler
  cases st.lastSuccessful
  · rfl
  · simp only
    split
    · split <;> rfl
    · rfl

theorem emptyPayloadPath_err (st : ClientState) (now : Nat) :
    (emptyPayloadPath st now).1.consecutiveErrors = st.consecutiveErrors + 1
    ∨ (emptyPayloadPath st now).1.consecutiveErrors = st.consecutiveErrors + 2 := by
  unfold emptyPayloadPath
  cases st.lastSuccessful with
  | none => right; exact exceptHandler_err _ now true
  | some cache =>
      simp only
      split
      · split
        · left; rfl
        · left; rfl
      · right; exact exceptHandler_err _ now true

theorem emptyPayloadPath_soft {st : ClientState} {L : Jv} (now : Nat)
    (hlast : st.lastSuccessful = some L) (htr : truthyJ L = true)
    (fs : List (String × Jv)) (hL : L = .obj fs)
    (hn : st.consecutiveErrors + 1 < maxConsecutiveErrors) :
    emptyPayloadPath st now =
      (⟨some L, st.consecutiveErrors + 1⟩,
        .snap (.obj (insertF fs "using_cached_data" (.bool true)))) := by
  subst hL
  unfold emptyPayloadPath
  rw [hlast]
  simp only [htr, Bool.true_and, decide_eq_true_eq, hn, if_pos, cachedCopy_obj]
  rfl

theorem emptyPayloadPath_hard {st : ClientState} (now : Nat)
    (hn : ¬ st.consecutiveErrors + 1 < maxConsecutiveErrors) :
    (emptyPayloadPath st now).2 = .failed := by
  unfold emptyPayloadPath
  cases hl : st.lastSuccessful with
  | none =>
      show (exceptHandler ⟨none, st.consecutiveErrors + 1⟩ now true).2 = .failed
      rw [exceptHandler_hard now true
        (by simp only [maxConsecutiveErrors] at hn ⊢; omega)]
  | some cache =>
      show ((if (truthyJ cache && decide (st.consecutiveErrors + 1 < maxConsecutiveErrors)) = true then
          match cachedCopy cache false now with
          | Except.ok d => (⟨some cache, st.consecutiveErrors + 1⟩, UpdResult.snap d)
          | Except.error _ => (⟨some cache, st.consecutiveErrors + 1⟩, UpdResult.crashed)
        else exceptHandler ⟨some cache, st.consecutiveErrors + 1⟩ now true)).2 = .failed
      rw [if_neg (by simp [hn])]
      rw [exceptHandler_hard now true
        (by simp only [maxConsecutiveErrors] at hn ⊢; omega)]

theorem async_update_fail_soft (st : ClientState) {L : Jv} {f : FetchSim}
    (jf : FetchSim) (nm1 nm2 : String) (now : Nat)
    (hf : IsFailFetch f) (hlast : st.lastSuccessful = some L)
    (htr : truthyJ L = true) (fs : List (String × Jv)) (hL : L = .obj fs)
    (hn : st.consecutiveErrors + 1 < maxConsecutiveErrors) :
    ∃ dd, async_update st f jf nm1 nm2 now =
      (⟨some L, st.consecutiveErrors + 1⟩, .snap dd) := by
  rcases hf with rfl | rfl | ⟨v, rfl, hv⟩
  · exact ⟨_, exceptHandler_soft st now true hlast htr fs hL hn⟩
  · exact ⟨_, exceptHandler_soft st now true hlast htr fs hL hn⟩
  · have heq : async_update st (.val v) jf nm1 nm2 now = emptyPayloadPath st now := by
      simp [async_update, hv]
    rw [heq, emptyPayloadPath_soft now hlast htr fs hL hn]
    exact ⟨_, rfl⟩

theorem async_update_fail_hard (st : ClientState) {f : FetchSim}
    (jf : FetchSim) (nm1 nm2 : String) (now : Nat)
    (hf : IsFailFetch f)
    (hn : ¬ st.consecutiveErrors + 1 < maxConsecutiveErrors) :
    (async_update st f jf nm1 nm2 now).2 = .failed := by
  rcases hf with rfl | rfl | ⟨v, rfl, hv⟩
  · show (exceptHandler st now true).2 = .failed
    rw [exceptHandler_hard now true hn]
  · show (exceptHandler st now true).2 = .failed
    rw [exceptHandler_hard now true hn]
  · have heq : async_update st (.val v) jf nm1 nm2 now = emptyPayloadPath st now := by
      simp [async_update, hv]
    rw [heq]
    exact emptyPayloadPath_hard now hn

/-- CLAIM C1 (amended).  Starting from a poller state holding a truthy
last-known-good snapshot and a consecutive-failure counter of 0, the
first `N - 1 = 2` consecutive fetch failures are soft failures answered
with cached data, and already the `N`-th (third) consecutive failure is
the first hard failure (raised `UpdateFailed`), even though the
last-known-good snapshot still exists. -/
theorem cache_fallback_amended (L : Jv) (fs : List (String × Jv))
    (hL : L = .obj fs) (htr : truthyJ L = true)
    (f1 f2 f3 jf1 jf2 jf3 : FetchSim)
    (h1 : IsFailFetch f1) (h2 : IsFailFetch f2) (h3 : IsFailFetch f3)
    (nm1 nm2 : String) (t1 t2 t3 : Nat) :
    (async_update ⟨some L, 0⟩ f1 jf1 nm1 nm2 t1).2.isSnap = true
    ∧ (async_update ⟨some L, 0⟩ f1 jf1 nm1 nm2 t1).1 = ⟨some L, 1⟩
    ∧ (async_update ⟨some L, 1⟩ f2 jf2 nm1 nm2 t2).2.isSnap = true
    ∧ (async_update ⟨some L, 1⟩ f2 jf2 nm1 nm2 t2).1 = ⟨some L, 2⟩
    ∧ (async_update ⟨some L, 2⟩ f3 jf3 nm1 nm2 t3).2 = .failed := by
  obtain ⟨d1, hr1⟩ := async_update_fail_soft ⟨some L, 0⟩ jf1 nm1 nm2 t1
    h1 rfl htr fs hL (by simp [maxConsecutiveErrors])
  obtain ⟨d2, hr2⟩ := async_update_fail_soft ⟨some L, 1⟩ jf2 nm1 nm2 t2
    h2 rfl htr fs hL (by simp [maxConsecutiveErrors])
  refine ⟨by rw [hr1]; rfl, by rw [hr1], by rw [hr2]; rfl, by rw [hr2], ?_⟩
  exact async_update_fail_hard ⟨some L, 2⟩ jf3 nm1 nm2 t3 h3
    (by simp [maxConsecutiveErrors])

/-- Witness for C1 (amended) at a concrete cache and failure inputs. -/
theorem cache_fallback_amended_witness :
    (async_update ⟨some (.obj [("status", .str "idle")]), 0⟩
        .errClient .errClient "" "" 0).2.isSnap = true
    ∧ (async_update ⟨some (.obj [("status", .str "idle")]), 0⟩
        .errClient .errClient "" "" 0).1 = ⟨some (.obj [("status", .str "idle")]), 1⟩
    ∧ (async_update ⟨some (.obj [("status", .str "idle")]), 1⟩
        .errTimeout .errClient "" "" 1).2.isSnap = true
    ∧ (async_update ⟨some (.obj [("status", .str "idle")]), 1⟩
        .errTimeout .errClient "" "" 1).1 = ⟨some (.obj [("status", .str "idle")]), 2⟩
    ∧ (async_update ⟨some (.obj [("status", .str "idle")]), 2⟩
        (.val (.obj [])) .errClient "" "" 2).2 = .failed :=
  cache_fallback_amended (.obj [("status", .str "idle")]) [("status", .str "idle")]
    rfl rfl .errClient .errTimeout (.val (.obj [])) .errClient .errClient .errClient
    (Or.inl rfl) (Or.inr (Or.inl rfl)) (Or.inr (Or.inr ⟨.obj [], rfl, rfl⟩)) "" "" 0 1 2

/-! Success-path decomposition of `async_update`. -/

theorem successBody_parts {p : Jv} {jobOpt : Option Jv} {nm1 nm2 : String}
    {now : Nat} {d : Jv} (h : successBody p jobOpt nm1 nm2 now = .ok d) :
    ∃ d1 d2 d3, statusStage p jobOpt = .ok d1
      ∧ mergeStage d1 jobOpt = .ok d2
      ∧ fillRequiredFields d2 = .ok d3
      ∧ setItemE (materialNamesPass d3 nm1 nm2) "sampleTime" (.time now) = .ok d := by
  unfold successBody at h
  rw [excBind_ok] at h
  obtain ⟨d1, h1, h⟩ := h
  rw [excBind_ok] at h
  obtain ⟨d2, h2, h⟩ := h
  rw [excBind_ok] at h
  obtain ⟨u, hu, h⟩ := h
  rw [excBind_ok] at h
  obtain ⟨d3, h3, h⟩ := h
  exact ⟨d1, d2, d3, h1, h2, h3, h⟩

theorem successBody_sampleTime {p : Jv} {jobOpt : Option Jv} {nm1 nm2 : String}
    {now : Nat} {d : Jv} (h : successBody p jobOpt nm1 nm2 now = .ok d) :
    entryO d "sampleTime" = some (.time now) := by
  obtain ⟨d1, d2, d3, _, _, _, hset⟩ := successBody_parts h
  cases hm : materialNamesPass d3 nm1 nm2 <;> rw [hm] at hset <;>
    simp [setItemE] at hset
  case obj fs =>
    rw [← hset]
    simp [entryO, lookupF_insertF_self]

/-- Identify the fully-successful branch of `async_update` from a
returned snapshot together with a reset error counter. -/
theorem async_update_success_inv {st st' : ClientState} {p : Jv} {jf : FetchSim}
    {nm1 nm2 : String} {now : Nat} {d : Jv}
    (h : async_update st (.val p) jf nm1 nm2 now = (st', .snap d))
    (herr : st'.consecutiveErrors = 0) :
    successBody p (jobOf jf) nm1 nm2 now = .ok d
    ∧ truthyJ p = true ∧ st'.lastSuccessful = some d := by
  simp only [async_update] at h
  by_cases hp : truthyJ p = true
  · rw [if_pos hp] at h
    cases hb : successBody p (jobOf jf) nm1 nm2 now with
    | ok d0 =>
        rw [hb] at h
        have h' : ((⟨some d0, 0⟩, UpdResult.snap d0) : ClientState × UpdResult)
            = (st', UpdResult.snap d) := h
        obtain ⟨h1, h2⟩ := Prod.mk.injEq .. |>.mp h'
        have hd : d0 = d := by cases h2; rfl
        exact ⟨by rw [hd], hp, by rw [← h1, hd]⟩
    | error e =>
        rw [hb] at h
        exfalso
        have h' : exceptHandler st now true = (st', UpdResult.snap d) := h
        have herr2 := exceptHandler_err st now true
        rw [h'] at herr2
        rw [herr] at herr2
        exact Nat.succ_ne_zero _ herr2.symm
  · rw [if_neg hp] at h
    exfalso
    rcases emptyPayloadPath_err st now with he | he <;> rw [h] at he <;>
      rw [herr] at he <;> exact Nat.succ_ne_zero _ he.symm

/-- CLAIM C3 (amended).  Soft failures caused by a connection error or
timeout return a copy of the last-known-good snapshot with
`using_cached_data = true` and a `sampleTime` refreshed to the current
poll; the soft failure caused by an empty primary payload returns the
cached copy with `using_cached_data = true` but keeps the cached
snapshot's old `sampleTime` (api_client.py lines 170-175 set no
`sampleTime`); and every fully successful cycle stamps the returned
snapshot with the current poll's `sampleTime`. -/
theorem soft_failure_cached_copy (st : ClientState) (L : Jv)
    (fs : List (String × Jv)) (jf : FetchSim) (nm1 nm2 : String) (now : Nat)
    (hL : L = .obj fs) (hlast : st.lastSuccessful = some L)
    (htr : truthyJ L = true)
    (hn : st.consecutiveErrors + 1 < maxConsecutiveErrors) :
    (∀ f, (f = FetchSim.errClient ∨ f = FetchSim.errTimeout) →
      async_update st f jf nm1 nm2 now =
        (⟨some L, st.consecutiveErrors + 1⟩,
          .snap (.obj (insertF (insertF fs "using_cached_data" (.bool true))
            "sampleTime" (.time now)))))
    ∧ (∀ v, truthyJ v = false →
      async_update st (.val v) jf nm1 nm2 now =
        (⟨some L, st.consecutiveErrors + 1⟩,
          .snap (.obj (insertF fs "using_cached_data" (.bool true))))
      ∧ entryO (.obj (insertF fs "using_cached_data" (.bool true))) "sampleTime"
          = entryO L "sampleTime")
    ∧ (∀ p d st', async_update st (.val p) jf nm1 nm2 now = (st', .snap d) →
        st'.consecutiveErrors = 0 → entryO d "sampleTime" = some (.time now)) := by
  refine ⟨?_, ?_, ?_⟩
  · rintro f (rfl | rfl)
    · have := exceptHandler_soft st now true hlast htr fs hL hn
      simpa using this
    · have := exceptHandler_soft st now true hlast htr fs hL hn
      simpa using this
  · intro v hv
    have heq : async_update st (.val v) jf nm1 nm2 now = emptyPayloadPath st now := by
      simp [async_update, hv]
    refine ⟨by rw [heq]; exact emptyPayloadPath_soft now hlast htr fs hL hn, ?_⟩
    subst hL
    simp [entryO, lookupF_insertF_ne _ _ _ _ (by decide : "sampleTime" ≠ "using_cached_data")]
  · intro p d st' hrun herr
    exact successBody_sampleTime (async_update_success_inv hrun herr).1

/-- Witness for C3 (amended) at a concrete cached snapshot. -/
theorem soft_failure_cached_copy_witness :
    async_update ⟨some (.obj [("status", .str "idle"), ("sampleTime", .time 5)]), 0⟩
        .errTimeout .errClient "" "" 9 =
      (⟨some (.obj [("status", .str "idle"), ("sampleTime", .time 5)]), 1⟩,
        .snap (.obj [("status", .str "idle"), ("sampleTime", .time 9),
          ("using_cached_data", .bool true)]))
    ∧ entryO (.obj [("status", .str "idle"), ("sampleTime", .time 5),
          ("using_cached_data", .bool true)]) "sampleTime" = entryO
        (.obj [("status", .str "idle"), ("sampleTime", .time 5)]) "sampleTime" := by
  have h := soft_failure_cached_copy
    ⟨some (.obj [("status", .str "idle"), ("sampleTime", .time 5)]), 0⟩
    (.obj [("status", .str "idle"), ("sampleTime", .time 5)])
    [("status", .str "idle"), ("sampleTime", .time 5)]
    .errClient "" "" 9 rfl rfl rfl (by simp [maxConsecutiveErrors])
  refine ⟨?_, ((h.2.1 (.obj []) rfl)).2⟩
  have := h.1 .errTimeout (Or.inr rfl)
  rw [this]
  rfl

/-! Required-path predicates for the returned snapshot (C4). -/

/-- A leaf is present whenever its immediate container is a mapping
(non-mapping containers can pass Python's `in` checks — e.g. a string
containing the key as substring — without gaining an entry). -/
def leafPresent (parent : Jv) (k : String) : Prop :=
  isObjB parent = true → (entryO parent k).isSome

/-- The required paths of one extruder record. -/
def ExtruderPaths (e : Jv) : Prop :=
  ∃ ho, entryO e "hotend" = some ho
    ∧ (entryO ho "id").isSome
    ∧ (∃ t, entryO ho "temperature" = some t
        ∧ leafPresent t "current" ∧ leafPresent t "target")
    ∧ (∃ s, entryO ho "statistics" = some s ∧ leafPresent s "material_extruded")
    ∧ ∃ am, entryO e "active_material" = some am
        ∧ leafPresent am "GUID" ∧ leafPresent am "length_remaining"

/-- The required paths of a snapshot: the `bed` block, extruder 0 of
the first head, and extruder 1 whenever it exists. -/
def RequiredPaths (d : Jv) : Prop :=
  (∃ b, entryO d "bed" = some b ∧ (entryO b "type").isSome
    ∧ ∃ t, entryO b "temperature" = some t
        ∧ leafPresent t "current" ∧ leafPresent t "target")
  ∧ (∃ e, extruderN d 0 = some e ∧ ExtruderPaths e)
  ∧ (∀ e2, extruderN d 1 = some e2 → ExtruderPaths e2)

theorem leafPresent_of_containsT {x : Jv} {k : String} (h : containsT x k) :
    leafPresent x k := by
  intro hobj
  cases x <;> simp [isObjB] at hobj
  exact entryO_isSome_of_containsT h

theorem extruderPaths_of_invExtruder {e : Jv} (h : InvExtruder e) :
    ExtruderPaths e := by
  obtain ⟨_, ⟨ho, heho, hoobj, ⟨t, het, hit⟩, hid, ⟨s, hes, his⟩⟩, ⟨am, heam, hiam⟩⟩ := h
  refine ⟨ho, heho, ?_, ⟨t, het, leafPresent_of_containsT hit.1,
      leafPresent_of_containsT hit.2⟩,
    ⟨s, hes, leafPresent_of_containsT his⟩,
    ⟨am, heam, leafPresent_of_containsT hiam.2, leafPresent_of_containsT hiam.1⟩⟩
  cases ho <;> simp [isObjB] at hoobj
  exact entryO_isSome_of_containsT hid

theorem requiredPaths_of_invTop {d : Jv} (h : InvTop d) : RequiredPaths d := by
  obtain ⟨hobj, ⟨b, heb, hbobj, ⟨t, het, hit⟩, hty⟩, ⟨hs, hehs, hihs⟩⟩ := h
  obtain ⟨h0, hrest, rfl, hih0⟩ := hihs
  obtain ⟨h0obj, xs, hexs, hixs⟩ := hih0
  obtain ⟨e0, erest, rfl, hie0, herest⟩ := hixs
  refine ⟨⟨b, heb, ?_, ⟨t, het, leafPresent_of_containsT hit.1,
      leafPresent_of_containsT hit.2⟩⟩, ?_, ?_⟩
  · cases b <;> simp [isObjB] at hbobj
    exact entryO_isSome_of_containsT hty
  · refine ⟨e0, ?_, extruderPaths_of_invExtruder hie0⟩
    simp [extruderN, headsFirst, hehs, arrAt, hexs]
  · intro e2 he2
    simp [extruderN, headsFirst, hehs, arrAt, hexs] at he2
    rcases herest with rfl | ⟨e2', rest2, rfl, hie2⟩
    · simp at he2
    · simp at he2
      rw [← he2]
      exact extruderPaths_of_invExtruder hie2

/-! The material-name pass preserves the fill invariant: its only
mutation is inserting a `material_name` key into an extruder's
`active_material` dict (re-creating the alias chain around it). -/

theorem invExtruder_insert_material {efs : List (String × Jv)} {am0 : Jv}
    {amfs : List (String × Jv)} {name : String}
    (hie : InvExtruder (.obj efs))
    (heam : lookupF efs "active_material" = some am0)
    (ham0 : am0 = .obj amfs) :
    InvExtruder (.obj (insertF efs "active_material"
      (.obj (insertF amfs "material_name" (.str name))))) := by
  obtain ⟨_, ⟨ho, heho, hiho⟩, ⟨am', heam', hiam⟩⟩ := hie
  simp only [entryO_obj] at heho heam'
  rw [heam] at heam'
  injection heam' with ham'
  subst ham'
  subst ham0
  exact ⟨rfl,
    ⟨ho, by simp [entryO,
      lookupF_insertF_ne _ _ _ _ (by decide : "hotend" ≠ "active_material"), heho], hiho⟩,
    ⟨_, lookupF_insertF_self efs "active_material" _,
      containsT_insertF hiam.1, containsT_insertF hiam.2⟩⟩

theorem materialPart_invTop {second : Bool} {name : String} {d d2 : Jv}
    (hinv : InvTop d) (h : materialPart second name d = .ok d2) : InvTop d2 := by
  have hinv0 := hinv
  obtain ⟨hobj, hbed, ⟨hs, hehs, hihs⟩⟩ := hinv
  obtain ⟨fs, rfl⟩ : ∃ fs, d = .obj fs := by cases d <;> simp_all [isObjB]
  obtain ⟨h0, hrest, rfl, hih0⟩ := hihs
  obtain ⟨h0obj, xs, hexs, hixs⟩ := hih0
  obtain ⟨h0fs, rfl⟩ : ∃ h0fs, h0 = .obj h0fs := by
    cases h0 <;> simp_all [isObjB]
  obtain ⟨e0, erest, rfl, hie0, herest⟩ := hixs
  simp only [entryO_obj] at hehs hexs
  unfold materialPart at h
  rw [excBind_ok] at h
  obtain ⟨heads, hheads, h⟩ := h
  rw [show heads = .arr (.obj h0fs :: hrest) by
    simpa [getDE, hehs] using hheads.symm] at h
  rw [if_pos (show truthyJ (.arr (.obj h0fs :: hrest)) = true from rfl)] at h
  rw [excBind_ok] at h
  obtain ⟨n, hn, h⟩ := h
  rw [show n = hrest.length + 1 by simpa [lenE] using hn.symm] at h
  rw [if_pos (Nat.succ_pos _)] at h
  rw [excBind_ok] at h
  obtain ⟨hd0, hhd0, h⟩ := h
  rw [show hd0 = .obj h0fs by simpa [index0E] using hhd0.symm] at h
  rw [excBind_ok] at h
  obtain ⟨extr, hextr, h⟩ := h
  rw [show extr = .arr (e0 :: erest) by simpa [getDE, hexs] using hextr.symm] at h
  rw [if_pos (show truthyJ (.arr (e0 :: erest)) = true from rfl)] at h
  rw [excBind_ok] at h
  obtain ⟨m, hm, h⟩ := h
  rw [show m = erest.length + 1 by simpa [lenE] using hm.symm] at h
  cases second with
  | false =>
      rw [if_pos (by simp : (if false = true then 1 < erest.length + 1
        else 0 < erest.length + 1))] at h
      rw [excBind_ok] at h
      obtain ⟨e, he, h⟩ := h
      rw [show e = e0 by simpa [indexSelE, index0E] using he.symm] at h
      obtain ⟨e0fs, rfl⟩ : ∃ e0fs, e0 = .obj e0fs := by
        obtain ⟨he0, _, _⟩ := hie0
        cases e0 <;> simp_all [isObjB]
      obtain ⟨am0, heam, hiam⟩ := hie0.2.2
      simp only [entryO_obj] at heam
      rw [excBind_ok] at h
      obtain ⟨am, ham, h⟩ := h
      rw [show am = am0 by simpa [getDE, heam] using ham.symm] at h
      rw [excBind_ok] at h
      obtain ⟨inner, hinner, h⟩ := h
      obtain ⟨amfs, rfl⟩ : ∃ amfs, am0 = .obj amfs := by
        cases am0 <;> simp [getDE] at hinner
        exact ⟨_, rfl⟩
      rw [excBind_ok] at h
      obtain ⟨guid, hguid, h⟩ := h
      by_cases hg : (truthyJ guid && !jvEqStr guid "unknown") = true
      · rw [if_pos hg] at h
        rw [excBind_ok] at h
        obtain ⟨u, hu, h⟩ := h
        rw [excBind_ok] at h
        obtain ⟨am2, ham2, h⟩ := h
        rw [show am2 = .obj (insertF amfs "material_name" (.str name)) by
          simpa [setItemE] using ham2.symm] at h
        rw [excBind_ok] at h
        obtain ⟨e2, he2, h⟩ := h
        rw [show e2 = .obj (insertF e0fs "active_material"
          (.obj (insertF amfs "material_name" (.str name)))) by
          simpa [setItemE] using he2.symm] at h
        rw [excBind_ok] at h
        obtain ⟨xs2, hxs2, h⟩ := h
        rw [show xs2 = .arr ((.obj (insertF e0fs "active_material"
          (.obj (insertF amfs "material_name" (.str name))))) :: erest) by
          simpa [setIndexSelE, setIndex0E] using hxs2.symm] at h
        rw [excBind_ok] at h
        obtain ⟨head2, hhead2, h⟩ := h
        rw [show head2 = .obj (insertF h0fs "extruders" (.arr ((.obj (insertF e0fs
          "active_material" (.obj (insertF amfs "material_name" (.str name))))) :: erest))) by
          simpa [setItemE] using hhead2.symm] at h
        rw [excBind_ok] at h
        obtain ⟨heads2, hheads2, h⟩ := h
        rw [show heads2 = .arr ((.obj (insertF h0fs "extruders" (.arr ((.obj (insertF e0fs
          "active_material" (.obj (insertF amfs "material_name" (.str name))))) :: erest)))) :: hrest) by
          simpa [setIndex0E] using hheads2.symm] at h
        have hd2 : d2 = .obj (insertF fs "heads" (.arr ((.obj (insertF h0fs "extruders"
          (.arr ((.obj (insertF e0fs "active_material" (.obj (insertF amfs "material_name"
            (.str name))))) :: erest)))) :: hrest))) := by
          simpa [setItemE] using h.symm
        subst hd2
        obtain ⟨b, heb, hib⟩ := hbed
        simp only [entryO_obj] at heb
        exact ⟨rfl,
          ⟨b, by simp [entryO,
            lookupF_insertF_ne _ _ _ _ (by decide : "bed" ≠ "heads"), heb], hib⟩,
          ⟨_, lookupF_insertF_self fs "heads" _,
            _, hrest, rfl,
            ⟨rfl, _, lookupF_insertF_self h0fs "extruders" _,
              _, erest, rfl,
              invExtruder_insert_material hie0 heam rfl, herest⟩⟩⟩
      · rw [if_neg hg] at h
        have hd2 : d2 = .obj fs := by
          simpa [Pure.pure, Except.pure] using h.symm
        subst hd2
        exact hinv0
  | true =>
      rcases herest with rfl | ⟨e1, erest2, rfl, hie1⟩
      · rw [if_neg (by simp : ¬ (if true = true then 1 < List.length [] + 1
          else 0 < List.length [] + 1))] at h
        have hd2 : d2 = .obj fs := by
          simpa [Pure.pure, Except.pure] using h.symm
        subst hd2
        exact hinv0
      · rw [if_pos (by simp : (if true = true then 1 < (e1 :: erest2).length + 1
          else 0 < (e1 :: erest2).length + 1))] at h
        rw [excBind_ok] at h
        obtain ⟨e, he, h⟩ := h
        rw [show e = e1 by simpa [indexSelE, index1E] using he.symm] at h
        obtain ⟨e1fs, rfl⟩ : ∃ e1fs, e1 = .obj e1fs := by
          obtain ⟨he1, _, _⟩ := hie1
          cases e1 <;> simp_all [isObjB]
        obtain ⟨am0, heam, hiam⟩ := hie1.2.2
        simp only [entryO_obj] at heam
        rw [excBind_ok] at h
        obtain ⟨am, ham, h⟩ := h
        rw [show am = am0 by simpa [getDE, heam] using ham.symm] at h
        rw [excBind_ok] at h
        obtain ⟨inner, hinner, h⟩ := h
        obtain ⟨amfs, rfl⟩ : ∃ amfs, am0 = .obj amfs := by
          cases am0 <;> simp [getDE] at hinner
          exact ⟨_, rfl⟩
        rw [excBind_ok] at h
        obtain ⟨guid, hguid, h⟩ := h
        by_cases hg : (truthyJ guid && !jvEqStr guid "unknown") = true
        · rw [if_pos hg] at h
          rw [excBind_ok] at h
          obtain ⟨u, hu, h⟩ := h
          rw [excBind_ok] at h
          obtain ⟨am2, ham2, h⟩ := h
          rw [show am2 = .obj (insertF amfs "material_name" (.str name)) by
            simpa [setItemE] using ham2.symm] at h
          rw [excBind_ok] at h
          obtain ⟨e2, he2, h⟩ := h
          rw [show e2 = .obj (insertF e1fs "active_material"
            (.obj (insertF amfs "material_name" (.str name)))) by
            simpa [setItemE] using he2.symm] at h
          rw [excBind_ok] at h
          obtain ⟨xs2, hxs2, h⟩ := h
          rw [show xs2 = .arr (e0 :: (.obj (insertF e1fs "active_material"
            (.obj (insertF amfs "material_name" (.str name))))) :: erest2) by
            simpa [setIndexSelE, setIndex1E] using hxs2.symm] at h
          rw [excBind_ok] at h
          obtain ⟨head2, hhead2, h⟩ := h
          rw [show head2 = .obj (insertF h0fs "extruders" (.arr (e0 :: (.obj (insertF e1fs
            "active_material" (.obj (insertF amfs "material_name" (.str name))))) :: erest2))) by
            simpa [setItemE] using hhead2.symm] at h
          rw [excBind_ok] at h
          obtain ⟨heads2, hheads2, h⟩ := h
          rw [show heads2 = .arr ((.obj (insertF h0fs "extruders" (.arr (e0 :: (.obj (insertF e1fs
            "active_material" (.obj (insertF amfs "material_name" (.str name))))) :: erest2)))) :: hrest) by
            simpa [setIndex0E] using hheads2.symm] at h
          have hd2 : d2 = .obj (insertF fs "heads" (.arr ((.obj (insertF h0fs "extruders"
            (.arr (e0 :: (.obj (insertF e1fs "active_material" (.obj (insertF amfs "material_name"
              (.str name))))) :: erest2)))) :: hrest))) := by
            simpa [setItemE] using h.symm
          subst hd2
          obtain ⟨b, heb, hib⟩ := hbed
          simp only [entryO_obj] at heb
          exact ⟨rfl,
            ⟨b, by simp [entryO,
              lookupF_insertF_ne _ _ _ _ (by decide : "bed" ≠ "heads"), heb], hib⟩,
            ⟨_, lookupF_insertF_self fs "heads" _,
              _, hrest, rfl,
              ⟨rfl, _, lookupF_insertF_self h0fs "extruders" _,
                e0, _, rfl, hie0,
                Or.inr ⟨_, erest2, rfl,
                  invExtruder_insert_material hie1 heam rfl⟩⟩⟩⟩
        · rw [if_neg hg] at h
          have hd2 : d2 = .obj fs := by
            simpa [Pure.pure, Except.pure] using h.symm
          subst hd2
          exact hinv0

theorem materialNamesPass_invTop {d : Jv} (nm1 nm2 : String) (hinv : InvTop d) :
    InvTop (materialNamesPass d nm1 nm2) := by
  unfold materialNamesPass
  cases h1 : materialPart false nm1 d with
  | error e => exact hinv
  | ok d1 =>
      have hinv1 := materialPart_invTop hinv h1
      show InvTop (match materialPart true nm2 d1 with
        | .error _ => d1
        | .ok d2 => d2)
      cases h2 : materialPart true nm2 d1 with
      | error e => exact hinv1
      | ok d2 => exact materialPart_invTop hinv1 h2

/-- CLAIM C4 (amended).  Every fully successful update cycle returns a
snapshot in which the `bed` block exists with `bed.type` present and
the temperature leaves present whenever their container is a mapping;
the first head's extruder 0 exists with `hotend.id` present and the
`temperature` / `statistics` / `active_material` containers present
(leaves present whenever the container is a mapping); and the same
holds for extruder 1 whenever a second extruder is present in the
snapshot — the pass creates no second extruder when the upstream data
lacks one (api_client.py line 338), and a pre-existing non-mapping
container that passes Python's `in` checks keeps no leaf entries. -/
theorem default_fill_amended (st st' : ClientState) (p : Jv) (jf : FetchSim)
    (nm1 nm2 : String) (now : Nat) (d : Jv)
    (h : async_update st (.val p) jf nm1 nm2 now = (st', .snap d))
    (herr : st'.consecutiveErrors = 0) :
    RequiredPaths d := by
  obtain ⟨hbody, _, _⟩ := async_update_success_inv h herr
  obtain ⟨d1, d2, d3, _, _, h3, hset⟩ := successBody_parts hbody
  have hinvM : InvTop (materialNamesPass d3 nm1 nm2) :=
    materialNamesPass_invTop nm1 nm2 (fillRequiredFields_post h3)
  obtain ⟨mfs, hm⟩ : ∃ mfs, materialNamesPass d3 nm1 nm2 = .obj mfs := by
    obtain ⟨ho, _, _⟩ := hinvM
    cases hmm : materialNamesPass d3 nm1 nm2 <;> rw [hmm] at ho <;>
      simp [isObjB] at ho
    exact ⟨_, rfl⟩
  rw [hm] at hset hinvM
  have hd : d = .obj (insertF mfs "sampleTime" (.time now)) := by
    simpa [setItemE] using hset.symm
  subst hd
  obtain ⟨_, ⟨b, heb, hib⟩, ⟨hs, hehs, hihs⟩⟩ := hinvM
  simp only [entryO_obj] at heb hehs
  apply requiredPaths_of_invTop
  exact ⟨rfl,
    ⟨b, by simp [entryO,
      lookupF_insertF_ne _ _ _ _ (by decide : "bed" ≠ "sampleTime"), heb], hib⟩,
    ⟨hs, by simp [entryO,
      lookupF_insertF_ne _ _ _ _ (by decide : "heads" ≠ "sampleTime"), hehs], hihs⟩⟩

/-- Witness for C4 (amended) at a concrete successful cycle. -/
theorem default_fill_amended_witness : RequiredPaths defaultFillCexSnap :=
  default_fill_amended ⟨none, 0⟩ ⟨some defaultFillCexSnap, 0⟩
    (.obj [("status", .str "idle")]) (.val (.obj [])) "" "" 3 defaultFillCexSnap
    rfl rfl

/-! Frame lemmas used by the amended status-correction claim. -/

/-- A print-job payload that signals completion: its (lower-cased)
state is in the completion set, or its progress is at least 0.999. -/
def jobDone (job : Jv) : Prop :=
  (∃ s, entryO job "state" = some (.str s) ∧ strLower s ∈ completionStates)
  ∨ (∃ q, entryO job "progress" = some (.num q) ∧ (999 / 1000 : Rat) ≤ q)

theorem statusStage_corrects {pfs : List (String × Jv)} {jobOpt : Option Jv}
    {d1 : Jv}
    (hstatus : lookupF pfs "status" = some (.str "printing"))
    (h : statusStage (.obj pfs) jobOpt = .ok d1)
    (hcase : (∃ job, jobOpt = some job ∧ jobDone job) ∨ jobOpt = none) :
    entryO d1 "status" = some (.str "idle") := by
  unfold statusStage at h
  rw [excBind_ok] at h
  obtain ⟨c, hc, h⟩ := h
  have hc' : c = true := by
    rw [show containsE (.obj pfs) "status" = .ok true by
      simp [containsE, hstatus]] at hc
    injection hc with hc
    exact hc.symm
  subst hc'
  rw [if_neg (by simp)] at h
  rw [excBind_ok] at h
  obtain ⟨raw, hraw, h⟩ := h
  have hraw' : raw = .str "printing" := by
    rw [show getItemE (.obj pfs) "status" = .ok (.str "printing") by
      simp [getItemE, hstatus]] at hraw
    injection hraw with hraw
    exact hraw.symm
  subst hraw'
  rcases hcase with ⟨job, rfl, hdone⟩ | rfl
  · have hjobObj : ∃ gs, job = .obj gs := by
      rcases hdone with ⟨s, hes, _⟩ | ⟨q, heq, _⟩
      · cases job <;> simp [entryO] at hes
        exact ⟨_, rfl⟩
      · cases job <;> simp [entryO] at heq
        exact ⟨_, rfl⟩
    obtain ⟨gs, rfl⟩ := hjobObj
    rw [excBind_ok] at h
    obtain ⟨stV, hstV, h⟩ := h
    rw [excBind_ok] at h
    obtain ⟨jobState, hjobState, h⟩ := h
    rw [excBind_ok] at h
    obtain ⟨jobProgress, hjobProgress, h⟩ := h
    by_cases hmem : jobState ∈ completionStates
    · rw [if_pos (by simp [jvEqStr, hmem])] at h
      have hd1 : d1 = .obj (insertF pfs "status" (.str "idle")) := by
        simpa [setItemE] using h.symm
      rw [hd1]
      simp [entryO, lookupF_insertF_self]
    · rw [if_neg (by simp [jvEqStr, hmem])] at h
      rw [if_pos (by simp [jvEqStr])] at h
      have hprog : ∃ q, entryO (Jv.obj gs) "progress" = some (.num q)
          ∧ (999 / 1000 : Rat) ≤ q := by
        rcases hdone with ⟨s, hes, hsmem⟩ | hq
        · exfalso
          simp only [entryO_obj] at hes
          rw [show stV = .str s by simpa [getDE, hes] using hstV.symm] at hjobState
          have : jobState = strLower s := by
            simpa [toLowerE] using hjobState.symm
          exact hmem (this ▸ hsmem)
        · exact hq
      obtain ⟨q, heq, hq⟩ := hprog
      simp only [entryO_obj] at heq
      rw [show jobProgress = .num q by simpa [getDE, heq] using hjobProgress.symm] at h
      rw [excBind_ok] at h
      obtain ⟨pq, hpq, h⟩ := h
      rw [show pq = q by simpa [toNumE] using hpq.symm] at h
      rw [if_pos hq] at h
      have hd1 : d1 = .obj (insertF pfs "status" (.str "idle")) := by
        simpa [setItemE] using h.symm
      rw [hd1]
      simp [entryO, lookupF_insertF_self]
  · rw [if_pos (by simp [jvEqStr])] at h
    have hd1 : d1 = .obj (insertF pfs "status" (.str "idle")) := by
      simpa [setItemE] using h.symm
    rw [hd1]
    simp [entryO, lookupF_insertF_self]

theorem setItemE_frame {d d' v : Jv} {k j : String}
    (h : setItemE d k v = .ok d') (hj : j ≠ k) :
    entryO d' j = entryO d j := by
  cases d <;> simp [setItemE] at h
  case obj fs =>
    rw [← h]
    simp [entryO, lookupF_insertF_ne _ _ _ _ hj]

theorem setdefaultE_frame {d d' v : Jv} {k j : String}
    (h : setdefaultE d k v = .ok d') (hj : j ≠ k) :
    entryO d' j = entryO d j := by
  cases d <;> simp [setdefaultE] at h
  case obj fs =>
    rw [← h]
    by_cases hl : (lookupF fs k).isSome
    · simp [hl]
    · simp [hl, entryO, lookupF_insertF_ne _ _ _ _ hj]

theorem mergeItemsE_frame {gs : List (String × Jv)} {j : String} :
    ∀ {d d2 : Jv}, lookupF gs j = none → mergeItemsE d (.obj gs) = .ok d2 →
    entryO d2 j = entryO d j := by
  induction gs with
  | nil =>
      intro d d2 _ h
      simp only [mergeItemsE, List.foldlM] at h
      have : d = d2 := by simpa [Pure.pure, Except.pure] using h
      rw [this]
  | cons kv rest ih =>
      intro d d2 hl h
      obtain ⟨k, v⟩ := kv
      have hkj : ¬ k = j := by
        by_contra hk
        subst hk
        simp [lookupF] at hl
      have hlr : lookupF rest j = none := by
        simpa [lookupF, hkj] using hl
      simp only [mergeItemsE, List.foldlM] at h
      rw [excBind_ok] at h
      obtain ⟨d1, hd1, h⟩ := h
      have h2 : mergeItemsE d1 (.obj rest) = .ok d2 := h
      rw [ih hlr h2]
      exact setItemE_frame hd1 (fun hh => hkj hh.symm)

theorem mergeStage_status_frame {d d2 : Jv} {jobOpt : Option Jv}
    (h : mergeStage d jobOpt = .ok d2)
    (hnost : ∀ job, jobOpt = some job → entryO job "status" = none) :
    entryO d2 "status" = entryO d "status" := by
  cases jobOpt with
  | some job =>
      have hno := hnost job rfl
      have hjobObj : ∃ gs, job = .obj gs := by
        unfold mergeStage mergeItemsE at h
        cases job <;> simp at h
        exact ⟨_, rfl⟩
      obtain ⟨gs, rfl⟩ := hjobObj
      simp only [entryO_obj] at hno
      exact mergeItemsE_frame hno h
  | none =>
      unfold mergeStage at h
      rw [excBind_ok] at h
      obtain ⟨a1, ha1, h⟩ := h
      rw [excBind_ok] at h
      obtain ⟨a2, ha2, h⟩ := h
      rw [excBind_ok] at h
      obtain ⟨a3, ha3, h⟩ := h
      rw [setdefaultE_frame h (by decide)]
      rw [setdefaultE_frame ha3 (by decide)]
      rw [setdefaultE_frame ha2 (by decide)]
      exact setdefaultE_frame ha1 (by decide)

theorem fillRequiredFields_frame {d d' : Jv} {j : String}
    (h : fillRequiredFields d = .ok d') (h1 : j ≠ "bed") (h2 : j ≠ "heads") :
    entryO d' j = entryO d j := by
  unfold fillRequiredFields at h
  rw [excBind_ok] at h
  obtain ⟨d1, hd1, h⟩ := h
  rw [ensureTruthyKeyWith_frame h h2]
  exact ensureKeyWith_frame hd1 h1

theorem materialPartTail_shape {second : Bool} {name : String}
    {fs : List (String × Jv)} {heads head xs : Jv} {d2 : Jv}
    (h : (indexSelE second xs >>= fun e =>
      getDE e "active_material" (.obj []) >>= fun am =>
      getDE am "guid" (.str "unknown") >>= fun inner =>
      getDE am "GUID" inner >>= fun guid =>
      if (truthyJ guid && !jvEqStr guid "unknown") = true then
        hashableGuardE guid >>= fun _ =>
        setItemE am "material_name" (.str name) >>= fun am2 =>
        setItemE e "active_material" am2 >>= fun e2 =>
        setIndexSelE second xs e2 >>= fun xs2 =>
        setItemE head "extruders" xs2 >>= fun head2 =>
        setIndex0E heads head2 >>= fun heads2 =>
        setItemE (Jv.obj fs) "heads" heads2
      else pure (Jv.obj fs)) = .ok d2) :
    d2 = .obj fs ∨ ∃ hs2, d2 = .obj (insertF fs "heads" hs2) := by
  rw [excBind_ok] at h
  obtain ⟨e, _, h⟩ := h
  rw [excBind_ok] at h
  obtain ⟨am, _, h⟩ := h
  rw [excBind_ok] at h
  obtain ⟨inner, _, h⟩ := h
  rw [excBind_ok] at h
  obtain ⟨guid, _, h⟩ := h
  split at h
  · rw [excBind_ok] at h
    obtain ⟨u, _, h⟩ := h
    rw [excBind_ok] at h
    obtain ⟨am2, _, h⟩ := h
    rw [excBind_ok] at h
    obtain ⟨e2, _, h⟩ := h
    rw [excBind_ok] at h
    obtain ⟨xs2, _, h⟩ := h
    rw [excBind_ok] at h
    obtain ⟨head2, _, h⟩ := h
    rw [excBind_ok] at h
    obtain ⟨heads2, _, h⟩ := h
    exact Or.inr ⟨heads2, by simpa [setItemE] using h.symm⟩
  · exact Or.inl (by simpa [Pure.pure, Except.pure] using h.symm)

theorem materialPart_shape {second : Bool} {name : String} {d d2 : Jv}
    (h : materialPart second name d = .ok d2) :
    d2 = d ∨ ∃ fs hs2, d = .obj fs ∧ d2 = .obj (insertF fs "heads" hs2) := by
  unfold materialPart at h
  rw [excBind_ok] at h
  obtain ⟨heads, hheads, h⟩ := h
  obtain ⟨fs, rfl⟩ : ∃ fs, d = .obj fs := by
    cases d <;> simp [getDE] at hheads
    exact ⟨_, rfl⟩
  split at h
  · rw [excBind_ok] at h
    obtain ⟨n, _, h⟩ := h
    split at h
    · rw [excBind_ok] at h
      obtain ⟨head, _, h⟩ := h
      rw [excBind_ok] at h
      obtain ⟨xs, _, h⟩ := h
      split at h
      · rw [excBind_ok] at h
        obtain ⟨m, _, h⟩ := h
        split at h
        · split at h
          · rcases materialPartTail_shape h with hd | ⟨hs2, hd⟩
            · exact Or.inl hd
            · exact Or.inr ⟨fs, hs2, rfl, hd⟩
          · exact Or.inl (by simpa [Pure.pure, Except.pure] using h.symm)
        · split at h
          · rcases materialPartTail_shape h with hd | ⟨hs2, hd⟩
            · exact Or.inl hd
            · exact Or.inr ⟨fs, hs2, rfl, hd⟩
          · exact Or.inl (by simpa [Pure.pure, Except.pure] using h.symm)
      · exact Or.inl (by simpa [Pure.pure, Except.pure] using h.symm)
    · exact Or.inl (by simpa [Pure.pure, Except.pure] using h.symm)
  · exact Or.inl (by simpa [Pure.pure, Except.pure] using h.symm)

theorem materialPart_frame {second : Bool} {name : String} {d d2 : Jv}
    {j : String} (h : materialPart second name d = .ok d2) (hj : j ≠ "heads") :
    entryO d2 j = entryO d j := by
  rcases materialPart_shape h with rfl | ⟨fs, hs2, rfl, rfl⟩
  · rfl
  · simp [entryO, lookupF_insertF_ne _ _ _ _ hj]

theorem materialNamesPass_frame (d : Jv) (nm1 nm2 : String) {j : String}
    (hj : j ≠ "heads") :
    entryO (materialNamesPass d nm1 nm2) j = entryO d j := by
  unfold materialNamesPass
  cases h1 : materialPart false nm1 d with
  | error e => rfl
  | ok d1 =>
      show entryO (match materialPart true nm2 d1 with
        | .error _ => d1
        | .ok d2 => d2) j = entryO d j
      cases h2 : materialPart true nm2 d1 with
      | error e => exact materialPart_frame h1 hj
      | ok d2 => rw [materialPart_frame h2 hj]; exact materialPart_frame h1 hj

/-- CLAIM C2 (amended).  For every fully successful update cycle in
which the primary payload reports status `printing` and either no
print-job payload was obtained, or the print-job payload signals
completion (state in the completion set, case-insensitively, or
progress at least 0.999) and does not itself carry a `status` key, the
returned snapshot's effective status is corrected to `idle`.  (When
the job payload carries its own `status` key, the key-by-key merge at
api_client.py lines 234-236 overwrites the corrected value, which is
what the counterexample exhibits.) -/
theorem status_correction_amended (st st' : ClientState)
    (pfs : List (String × Jv)) (jf : FetchSim) (nm1 nm2 : String)
    (now : Nat) (d : Jv)
    (hstatus : lookupF pfs "status" = some (.str "printing"))
    (h : async_update st (.val (.obj pfs)) jf nm1 nm2 now = (st', .snap d))
    (herr : st'.consecutiveErrors = 0)
    (hcase : (∃ job, jobOf jf = some job ∧ entryO job "status" = none ∧ jobDone job)
      ∨ jobOf jf = none) :
    entryO d "status" = some (.str "idle") := by
  obtain ⟨hbody, _, _⟩ := async_update_success_inv h herr
  obtain ⟨d1, d2, d3, h1, h2, h3, hset⟩ := successBody_parts hbody
  have hst1 : entryO d1 "status" = some (.str "idle") := by
    refine statusStage_corrects hstatus h1 ?_
    rcases hcase with ⟨job, hj, _, hdone⟩ | hj
    · exact Or.inl ⟨job, hj, hdone⟩
    · exact Or.inr hj
  have hst2 : entryO d2 "status" = some (.str "idle") := by
    rw [mergeStage_status_frame h2 ?_]
    · exact hst1
    · intro job hj
      rcases hcase with ⟨job', hj', hno, _⟩ | hj'
      · rw [hj] at hj'
        injection hj' with hj'
        rw [hj']
        exact hno
      · rw [hj] at hj'
        cases hj'
  have hst3 : entryO d3 "status" = some (.str "idle") := by
    rw [fillRequiredFields_frame h3 (by decide) (by decide)]
    exact hst2
  have hstM : entryO (materialNamesPass d3 nm1 nm2) "status" = some (.str "idle") := by
    rw [materialNamesPass_frame d3 nm1 nm2 (by decide)]
    exact hst3
  rw [setItemE_frame hset (by decide)]
  exact hstM

/-- The snapshot returned in the C2 (amended) witness run. -/
def statusAmendedSnap : Jv :=
  .obj [("status", .str "idle"), ("state", .str "finished"),
    ("bed", .obj [("temperature", .obj [("current", .num 0), ("target", .num 0)]),
      ("type", .str "unknown")]),
    ("heads", .arr [.obj [("extruders", .arr [.obj
      [("hotend", .obj [("temperature", .obj [("current", .num 0), ("target", .num 0)]),
        ("id", .str "unknown"), ("statistics", .obj [("material_extruded", .num 0)])]),
       ("active_material", .obj [("length_remaining", .num 0), ("GUID", .str "unknown")])]])]]),
    ("sampleTime", .time 4)]

/-- Witness for C2 (amended) at a concrete cycle with a completed job. -/
theorem status_correction_amended_witness :
    entryO statusAmendedSnap "status" = some (.str "idle") :=
  status_correction_amended ⟨none, 0⟩ ⟨some statusAmendedSnap, 0⟩
    [("status", .str "printing")] (.val (.obj [("state", .str "finished")]))
    "" "" 4 statusAmendedSnap rfl rfl rfl
    (Or.inl ⟨.obj [("state", .str "finished")], rfl, rfl,
      Or.inl ⟨"finished", rfl, by decide⟩⟩)

end Ultimaker
